import Mathlib

/-! The spring-boot trait (`pkg/trait/springboot.go`).

A shallow embedding of `springBootTrait.appliesTo` and `springBootTrait.apply`.

* Go strings are Lean strings; `sort.Strings` orders them ascending (Go compares
  strings bytewise, which on UTF-8 text is the code-point order used here).
* A Go pointer that may be `nil` is an `Option`.
* `Environment.EnvVars` is a Go `map[string]string`: `none` is the nil map, `some m` an
  initialised map with `m k = none` for an absent key.  Assigning into the nil map is a
  run-time panic, so `apply` returns in `Except Panic`.
* `apply` mutates the Environment behind its pointer and returns a Go `error`; here it
  returns the Environment after the call together with that error.
* The numeric step phases of package `builder` are not part of the sources; they are the
  parameter `BuilderPhases`.
* `appliesToChecked` and `applyChecked` render the same two methods with every pointer
  dereference fallible; they are proved equal to `appliesTo` and `apply`.
-/

namespace trait

/-! ## Data model -/

/-- Modelled from the spec: the constant `v1alpha1.IntegrationContextPhaseBuilding`
(package `v1alpha1` is outside the sources); the spec names this phase `Building`. -/
def IntegrationContextPhaseBuilding : String := "Building"

/-- Modelled from the spec: the constant `v1alpha1.IntegrationPhaseDeploying`
(package `v1alpha1` is outside the sources); the spec names this phase `Deploying`. -/
def IntegrationPhaseDeploying : String := "Deploying"

/-- The `Status` of a `v1alpha1.IntegrationContext`, reduced to the field read here. -/
structure IntegrationContextStatus where
  Phase : String
  deriving DecidableEq, Repr

/-- The resource `v1alpha1.IntegrationContext` (the spec's BuildContext). -/
structure IntegrationContext where
  Status : IntegrationContextStatus
  deriving DecidableEq, Repr

/-- The `Spec` of a `v1alpha1.Integration`, reduced to the field used here. -/
structure IntegrationSpec where
  Dependencies : List String
  deriving DecidableEq, Repr

/-- The `Status` of a `v1alpha1.Integration`, reduced to the field read here. -/
structure IntegrationStatus where
  Phase : String
  deriving DecidableEq, Repr

/-- The resource `v1alpha1.Integration`. -/
structure Integration where
  Spec : IntegrationSpec
  Status : IntegrationStatus
  deriving DecidableEq, Repr

/-- The action carried by a build step.  The core never runs it, so it is identified by the
function it names: the three `springboot.*` actions registered by this trait, or any other. -/
inductive Task where
  | Initialize
  | ComputeDependencies
  | GenerateProject
  | other (id : Nat)
  deriving DecidableEq, Repr

/-- A `builder.Step`: its name, its phase (what `Phase()` returns) and its action. -/
structure Step where
  name : String
  phase : Int
  task : Task
  deriving DecidableEq, Repr

/-- The constructor `builder.NewStep(name, phase, task)`. -/
def NewStep (name : String) (phase : Int) (task : Task) : Step :=
  { name := name, phase := phase, task := task }

/-- The step-phase constants of package `builder` read by this trait.  Their values are not
part of the sources, so they are a parameter of `apply`. -/
structure BuilderPhases where
  IntiPhase : Int
  ProjectGenerationPhase : Int
  ProjectBuildPhase : Int
  deriving DecidableEq, Repr

/-- A Go `map[string]string`: `none` is the nil map. -/
abbrev EnvMap := Option (String → Option String)

/-- The fields of `Environment` that the trait reads or writes. -/
structure Environment where
  Context : Option IntegrationContext
  Integration : Option Integration
  Steps : List Step
  EnvVars : EnvMap

/-- Run-time panics reachable from the statements of `apply`. -/
inductive Panic where
  | assignmentToNilMap
  | indexOutOfRange
  | nilPointerDereference
  deriving DecidableEq, Repr

/-- What a call of `apply` leaves behind: the Environment after the call and the returned
Go `error` (`none` is `nil`). -/
structure Applied where
  env : Environment
  err : Option String

/-! ## Collaborators -/

/-- Modelled from the spec: `util.StringSliceUniqueAdd` (package `util` is outside the
sources) appends `item` to the slice only if it is not already present, the membership
test being string equality, and otherwise leaves the slice unchanged. -/
def StringSliceUniqueAdd (slice : List String) (item : String) : List String :=
  if item ∈ slice then slice else slice ++ [item]

/-- Go's `sort.Strings`: sorts a slice of strings in increasing order. -/
def sortStrings (l : List String) : List String :=
  l.insertionSort (· ≤ ·)

/-- The assignment `m[k] = v` on a Go map: a panic on the nil map. -/
def mapAssign (m : EnvMap) (k v : String) : Except Panic EnvMap :=
  match m with
  | none => .error Panic.assignmentToNilMap
  | some f => .ok (some (Function.update f k (some v)))

/-! ## `appliesTo` -/

/-- The condition `e.Context != nil && e.Context.Status.Phase == IntegrationContextPhaseBuilding`. -/
def contextBuilding (e : Environment) : Bool :=
  match e.Context with
  | some ctx => decide (ctx.Status.Phase = IntegrationContextPhaseBuilding)
  | none => false

/-- The condition `e.Integration != nil && e.Integration.Status.Phase == IntegrationPhaseDeploying`. -/
def integrationDeploying (e : Environment) : Bool :=
  match e.Integration with
  | some it => decide (it.Status.Phase = IntegrationPhaseDeploying)
  | none => false

/-- The condition `e.Integration != nil && e.Integration.Status.Phase == ""`. -/
def integrationUnset (e : Environment) : Bool :=
  match e.Integration with
  | some it => decide (it.Status.Phase = "")
  | none => false

/-- The method `springBootTrait.appliesTo`. -/
def appliesTo (e : Environment) : Bool :=
  if contextBuilding e then true
  else if integrationDeploying e then true
  else if integrationUnset e then true
  else false

/-! ## `apply` -/

/-- Lines 73-76: unique-add the runtime dependency, then sort the whole list. -/
def addRuntimeDependency (it : Integration) : Integration :=
  { it with
    Spec := ⟨sortStrings (StringSliceUniqueAdd it.Spec.Dependencies "runtime:spring-boot")⟩ }

/-- First block of `apply` (lines 72-77). -/
def applyIntegrationUnset (e : Environment) : Environment :=
  if integrationUnset e then
    { e with Integration := e.Integration.map addRuntimeDependency }
  else e

/-- Second block of `apply` (lines 79-83). -/
def applyIntegrationDeploying (e : Environment) : Except Panic Environment :=
  if integrationDeploying e then do
    let m ← mapAssign e.EnvVars "JAVA_MAIN_CLASS" "org.springframework.boot.loader.PropertiesLauncher"
    let m ← mapAssign m "LOADER_PATH" "/deployments/dependencies/"
    pure { e with EnvVars := m }
  else pure e

/-- The step `builder.NewStep("initialize/spring-boot", builder.IntiPhase, springboot.Initialize)`. -/
def initializeStep (c : BuilderPhases) : Step :=
  NewStep "initialize/spring-boot" c.IntiPhase Task.Initialize

/-- The step `builder.NewStep("build/compute-boot-dependencies", builder.ProjectBuildPhase+1,
springboot.ComputeDependencies)`. -/
def computeDependenciesStep (c : BuilderPhases) : Step :=
  NewStep "build/compute-boot-dependencies" (c.ProjectBuildPhase + 1) Task.ComputeDependencies

/-- The step `builder.NewStep("generate/spring-boot", builder.ProjectGenerationPhase,
springboot.GenerateProject)`. -/
def generateStep (c : BuilderPhases) : Step :=
  NewStep "generate/spring-boot" c.ProjectGenerationPhase Task.GenerateProject

/-- The loop of lines 95-99, entered with loop variable `i`:
`for ; i < len(steps); i++ { if steps[i].Phase() == ProjectGenerationPhase { steps[i] = ... } }`.
An access `steps[i]` outside the slice is a panic. -/
def replaceProjectGenerator (c : BuilderPhases) (steps : List Step) (i : Nat) :
    Except Panic (List Step) :=
  if i < steps.length then
    match steps[i]? with
    | none => .error Panic.indexOutOfRange
    | some s =>
      if s.phase = c.ProjectGenerationPhase then
        replaceProjectGenerator c (steps.set i (generateStep c)) (i + 1)
      else
        replaceProjectGenerator c steps (i + 1)
  else .ok steps
termination_by steps.length - i
decreasing_by
  all_goals simp_wf
  all_goals omega

/-- Third block of `apply` (lines 89-100). -/
def applyContextBuilding (c : BuilderPhases) (e : Environment) : Except Panic Environment :=
  if contextBuilding e then do
    let steps := e.Steps ++ [initializeStep c]
    let steps := steps ++ [computeDependenciesStep c]
    let steps ← replaceProjectGenerator c steps 0
    pure { e with Steps := steps }
  else pure e

/-- The method `springBootTrait.apply`: the three blocks in program order, then `return nil`. -/
def apply (c : BuilderPhases) (e : Environment) : Except Panic Applied := do
  let e := applyIntegrationUnset e
  let e ← applyIntegrationDeploying e
  let e ← applyContextBuilding c e
  pure { env := e, err := none }

/-- Applying the trait again to the Environment left by a first application. -/
def applyTwice (c : BuilderPhases) (e : Environment) : Except Panic Applied := do
  let r ← apply c e
  apply c r.env

/-- What the replacement loop does to one step. -/
def replaceStep (c : BuilderPhases) (s : Step) : Step :=
  if s.phase = c.ProjectGenerationPhase then generateStep c else s

/-- A phase scale used for concrete runs. -/
def samplePhases : BuilderPhases :=
  { IntiPhase := 0, ProjectGenerationPhase := 10, ProjectBuildPhase := 20 }

/-- The empty, initialised env-var map. -/
def emptyEnvVars : EnvMap := some (fun _ => none)

/-- The env-var map after the two assignments of lines 81-82. -/
def springBootEnv (m : String → Option String) : String → Option String :=
  Function.update
    (Function.update m "JAVA_MAIN_CLASS" (some "org.springframework.boot.loader.PropertiesLauncher"))
    "LOADER_PATH" (some "/deployments/dependencies/")

/-- The Environment after the third block, in closed form. -/
def withBuildSteps (c : BuilderPhases) (e : Environment) : Environment :=
  if contextBuilding e then
    { e with Steps := (e.Steps ++ [initializeStep c, computeDependenciesStep c]).map (replaceStep c) }
  else e

/-- A BuildContext in the Building phase, no Integration, an empty registry. -/
def buildingEnv : Environment :=
  { Context := some ⟨⟨IntegrationContextPhaseBuilding⟩⟩, Integration := none, Steps := [], EnvVars := emptyEnvVars }

/-- An Integration that is already running, next to a BuildContext that is ready. -/
def runningEnv : Environment :=
  { Context := some ⟨⟨"Ready"⟩⟩,
    Integration := some ⟨⟨["b-lib"]⟩, ⟨"Running"⟩⟩,
    Steps := [NewStep "generate/project" 10 (Task.other 0)],
    EnvVars := none }

/-- A BuildContext in the Building phase next to an Integration in the Deploying phase. -/
def buildingDeployingEnv : Environment :=
  { Context := some ⟨⟨IntegrationContextPhaseBuilding⟩⟩,
    Integration := some ⟨⟨[]⟩, ⟨IntegrationPhaseDeploying⟩⟩,
    Steps := [],
    EnvVars := emptyEnvVars }

/-- An Integration in the unset phase whose dependency list names `a` twice. -/
def duplicateDepsEnv : Environment :=
  { Context := none,
    Integration := some ⟨⟨["a", "a"]⟩, ⟨""⟩⟩,
    Steps := [],
    EnvVars := none }

/-- The spec's scenario: an Integration in the unset phase with `Dependencies = ["b-lib"]`. -/
def bLibEnv : Environment :=
  { Context := none,
    Integration := some ⟨⟨["b-lib"]⟩, ⟨""⟩⟩,
    Steps := [],
    EnvVars := none }

/-- The spec's scenario: an Integration in the Deploying phase and an empty env-var map. -/
def deployingEnv : Environment :=
  { Context := none,
    Integration := some ⟨⟨["b-lib"]⟩, ⟨IntegrationPhaseDeploying⟩⟩,
    Steps := [],
    EnvVars := emptyEnvVars }

/-- A Building-phase BuildContext whose registry holds one step at the project-generation
phase of `samplePhases`, at index 1. -/
def singleGeneratorEnv : Environment :=
  { Context := some ⟨⟨IntegrationContextPhaseBuilding⟩⟩,
    Integration := none,
    Steps := [NewStep "prepare" 0 (Task.other 0),
              NewStep "generate/project" 10 (Task.other 1),
              NewStep "build/project" 20 (Task.other 2)],
    EnvVars := emptyEnvVars }

/-- A Building-phase BuildContext whose registry holds two steps at the project-generation
phase of `samplePhases`. -/
def twoGeneratorsEnv : Environment :=
  { Context := some ⟨⟨IntegrationContextPhaseBuilding⟩⟩,
    Integration := none,
    Steps := [NewStep "generate/project" 10 (Task.other 1),
              NewStep "generate/extra" 10 (Task.other 3)],
    EnvVars := emptyEnvVars }

/-- A Building-phase BuildContext whose registry holds no step at the project-generation
phase of `samplePhases`. -/
def noGeneratorEnv : Environment :=
  { Context := some ⟨⟨IntegrationContextPhaseBuilding⟩⟩,
    Integration := none,
    Steps := [NewStep "prepare" 0 (Task.other 0), NewStep "build/project" 20 (Task.other 2)],
    EnvVars := emptyEnvVars }

/-! ## The trait value -/

/-- The embedded `BaseTrait`, reduced to the field read here: `Enabled` is a `*bool`. -/
structure BaseTrait where
  Enabled : Option Bool
  deriving DecidableEq, Repr

/-- The type `springBootTrait`: it embeds a `BaseTrait`. -/
structure springBootTrait where
  BaseTrait : BaseTrait
  deriving DecidableEq, Repr

/-- The method `springBootTrait.IsAuto`. -/
def IsAuto (_t : springBootTrait) : Bool := false

/-- The method `springBootTrait.IsEnabled`. -/
def IsEnabled (t : springBootTrait) : Bool :=
  match t.BaseTrait.Enabled with
  | none => false
  | some b => b

/-! ## The same methods with every dereference checked -/

/-- The dereference of a Go pointer: a panic on `nil`. -/
def deref {α : Type} (p : Option α) : Except Panic α :=
  match p with
  | some a => .ok a
  | none => .error Panic.nilPointerDereference

/-- The condition `p != nil && cond(*p)`: Go evaluates the right operand, which dereferences
`p`, only when the left one holds. -/
def presentAnd {α : Type} (p : Option α) (cond : α → Bool) : Except Panic Bool :=
  if p.isSome then do
    let a ← deref p
    pure (cond a)
  else pure false

/-- The method `appliesTo`, statement by statement, every dereference checked. -/
def appliesToChecked (e : Environment) : Except Panic Bool := do
  if ← presentAnd e.Context
      (fun ctx => decide (ctx.Status.Phase = IntegrationContextPhaseBuilding)) then
    return true
  if ← presentAnd e.Integration
      (fun it => decide (it.Status.Phase = IntegrationPhaseDeploying)) then
    return true
  if ← presentAnd e.Integration (fun it => decide (it.Status.Phase = "")) then
    return true
  return false

/-- Lines 72-77, every dereference of `e.Integration` checked. -/
def applyIntegrationUnsetChecked (e : Environment) : Except Panic Environment := do
  if ← presentAnd e.Integration (fun it => decide (it.Status.Phase = "")) then
    let it ← deref e.Integration
    let e1 : Environment :=
      { e with Integration := some { it with
          Spec := ⟨StringSliceUniqueAdd it.Spec.Dependencies "runtime:spring-boot"⟩ } }
    let it1 ← deref e1.Integration
    pure { e1 with Integration := some { it1 with
      Spec := ⟨sortStrings it1.Spec.Dependencies⟩ } }
  else pure e

/-- Lines 79-83, every dereference of `e.Integration` checked. -/
def applyIntegrationDeployingChecked (e : Environment) : Except Panic Environment := do
  if ← presentAnd e.Integration
      (fun it => decide (it.Status.Phase = IntegrationPhaseDeploying)) then
    let m ← mapAssign e.EnvVars "JAVA_MAIN_CLASS" "org.springframework.boot.loader.PropertiesLauncher"
    let m ← mapAssign m "LOADER_PATH" "/deployments/dependencies/"
    pure { e with EnvVars := m }
  else pure e

/-- Lines 89-100, the dereference of `e.Context` and every index access checked. -/
def applyContextBuildingChecked (c : BuilderPhases) (e : Environment) :
    Except Panic Environment := do
  if ← presentAnd e.Context
      (fun ctx => decide (ctx.Status.Phase = IntegrationContextPhaseBuilding)) then
    let steps := e.Steps ++ [initializeStep c]
    let steps := steps ++ [computeDependenciesStep c]
    let steps ← replaceProjectGenerator c steps 0
    pure { e with Steps := steps }
  else pure e

/-- The method `apply`, statement by statement, every dereference and index access checked. -/
def applyChecked (c : BuilderPhases) (e : Environment) : Except Panic Applied := do
  let e ← applyIntegrationUnsetChecked e
  let e ← applyIntegrationDeployingChecked e
  let e ← applyContextBuildingChecked c e
  pure { env := e, err := none }

/-- An Environment with neither resource and an initialised env-var map. -/
def bareEnv : Environment :=
  { Context := none, Integration := none, Steps := [], EnvVars := emptyEnvVars }

/-- A Deploying-phase Integration in an Environment whose env-var map is nil. -/
def deployingNilMapEnv : Environment :=
  { Context := none,
    Integration := some ⟨⟨[]⟩, ⟨IntegrationPhaseDeploying⟩⟩,
    Steps := [],
    EnvVars := none }

/-- A second Deploying-phase Integration: it agrees with `deployingEnv` on which resources are
present and on their phases, and differs in dependency list, registry and env-var map. -/
def deployingOtherEnv : Environment :=
  { Context := none,
    Integration := some ⟨⟨["x-lib", "y-lib"]⟩, ⟨IntegrationPhaseDeploying⟩⟩,
    Steps := [NewStep "build/project" 20 (Task.other 2)],
    EnvVars := none }

/-- The spec's Deploying scenario, but with the nil env-var map. -/
def deployingLibNilMapEnv : Environment :=
  { Context := none,
    Integration := some ⟨⟨["b-lib"]⟩, ⟨IntegrationPhaseDeploying⟩⟩,
    Steps := [],
    EnvVars := none }

/-- The registry of `singleGeneratorEnv` in a Building-phase BuildContext that sits next to a
Deploying-phase Integration, the env-var map being nil. -/
def singleGeneratorNilMapEnv : Environment :=
  { Context := some ⟨⟨IntegrationContextPhaseBuilding⟩⟩,
    Integration := some ⟨⟨[]⟩, ⟨IntegrationPhaseDeploying⟩⟩,
    Steps := [NewStep "prepare" 0 (Task.other 0),
              NewStep "generate/project" 10 (Task.other 1),
              NewStep "build/project" 20 (Task.other 2)],
    EnvVars := none }

/-- The registry of `noGeneratorEnv` in a Building-phase BuildContext that sits next to a
Deploying-phase Integration, the env-var map being nil. -/
def noGeneratorNilMapEnv : Environment :=
  { Context := some ⟨⟨IntegrationContextPhaseBuilding⟩⟩,
    Integration := some ⟨⟨[]⟩, ⟨IntegrationPhaseDeploying⟩⟩,
    Steps := [NewStep "prepare" 0 (Task.other 0), NewStep "build/project" 20 (Task.other 2)],
    EnvVars := none }

/-- A Building-phase BuildContext with one registered step, next to a Deploying-phase
Integration, the env-var map being nil. -/
def buildingDeployingNilMapEnv : Environment :=
  { Context := some ⟨⟨IntegrationContextPhaseBuilding⟩⟩,
    Integration := some ⟨⟨[]⟩, ⟨IntegrationPhaseDeploying⟩⟩,
    Steps := [NewStep "build/project" 20 (Task.other 2)],
    EnvVars := none }

/-- A Building-phase BuildContext next to an Integration in the unset phase. -/
def buildingUnsetEnv : Environment :=
  { Context := some ⟨⟨IntegrationContextPhaseBuilding⟩⟩,
    Integration := some ⟨⟨["b-lib"]⟩, ⟨""⟩⟩,
    Steps := [],
    EnvVars := none }

/-! ## The replacement loop in closed form -/

theorem replaceProjectGenerator_append (c : BuilderPhases) (rest pre : List Step) :
    replaceProjectGenerator c (pre ++ rest) pre.length = .ok (pre ++ rest.map (replaceStep c)) := by
  induction rest generalizing pre with
  | nil =>
    rw [replaceProjectGenerator]
    simp
  | cons s t ih =>
    rw [replaceProjectGenerator]
    have hlt : pre.length < (pre ++ s :: t).length := by simp
    rw [if_pos hlt]
    have hget : (pre ++ s :: t)[pre.length]? = some s := by
      rw [List.getElem?_append_right (le_refl _)]
      simp
    rw [hget]
    by_cases hs : s.phase = c.ProjectGenerationPhase
    · have hset : (pre ++ s :: t).set pre.length (generateStep c)
          = (pre ++ [generateStep c]) ++ t := by simp
      have := ih (pre ++ [generateStep c])
      simp only [List.length_append, List.length_singleton] at this
      simp only [hs, if_true, hset, this]
      simp [replaceStep, hs]
    · have := ih (pre ++ [s])
      simp only [List.length_append, List.length_singleton] at this
      have hre : pre ++ s :: t = (pre ++ [s]) ++ t := by simp
      simp only [hs, if_false]
      rw [hre, this]
      simp [replaceStep, hs]

theorem replaceProjectGenerator_zero (c : BuilderPhases) (steps : List Step) :
    replaceProjectGenerator c steps 0 = .ok (steps.map (replaceStep c)) := by
  simpa using replaceProjectGenerator_append c steps []

theorem applyContextBuilding_eq (c : BuilderPhases) (e : Environment) :
    applyContextBuilding c e = .ok (withBuildSteps c e) := by
  unfold applyContextBuilding withBuildSteps
  by_cases h : contextBuilding e = true
  · simp only [h, if_true]
    rw [show e.Steps ++ [initializeStep c] ++ [computeDependenciesStep c]
        = e.Steps ++ [initializeStep c, computeDependenciesStep c] by simp]
    rw [replaceProjectGenerator_zero]
    rfl
  · simp only [h]
    rfl

/-! ## The guards are not affected by the first block -/

theorem contextBuilding_applyIntegrationUnset (e : Environment) :
    contextBuilding (applyIntegrationUnset e) = contextBuilding e := by
  unfold applyIntegrationUnset
  split <;> rfl

theorem integrationDeploying_applyIntegrationUnset (e : Environment) :
    integrationDeploying (applyIntegrationUnset e) = integrationDeploying e := by
  unfold applyIntegrationUnset
  split
  · unfold integrationDeploying
    cases h : e.Integration <;> simp [addRuntimeDependency]
  · rfl

theorem integrationUnset_applyIntegrationUnset (e : Environment) :
    integrationUnset (applyIntegrationUnset e) = integrationUnset e := by
  unfold applyIntegrationUnset
  split
  · unfold integrationUnset
    cases h : e.Integration <;> simp [addRuntimeDependency]
  · rfl

theorem not_unset_and_deploying (e : Environment) :
    ¬ (integrationUnset e = true ∧ integrationDeploying e = true) := by
  unfold integrationUnset integrationDeploying
  cases h : e.Integration with
  | none => simp
  | some it =>
    simp only [decide_eq_true_eq]
    rintro ⟨h1, h2⟩
    rw [h1] at h2
    exact absurd h2 (by decide)

/-! ## `apply` in closed form -/

theorem apply_of_not_deploying (c : BuilderPhases) (e : Environment)
    (h : integrationDeploying e = false) :
    apply c e = .ok { env := withBuildSteps c (applyIntegrationUnset e), err := none } := by
  have h2 : integrationDeploying (applyIntegrationUnset e) = false := by
    rw [integrationDeploying_applyIntegrationUnset]; exact h
  simp only [apply, applyIntegrationDeploying, h2, applyContextBuilding_eq, Bool.false_eq_true,
    if_false]
  rfl

theorem applyIntegrationUnset_of_not (e : Environment) (h : integrationUnset e = false) :
    applyIntegrationUnset e = e := by
  simp [applyIntegrationUnset, h]

theorem apply_of_deploying (c : BuilderPhases) (e : Environment) (m : String → Option String)
    (h : integrationDeploying e = true) (hm : e.EnvVars = some m) :
    apply c e = .ok { env := withBuildSteps c { e with EnvVars := some (springBootEnv m) },
                      err := none } := by
  have hu : integrationUnset e = false := by
    cases hu : integrationUnset e
    · rfl
    · exact absurd ⟨hu, h⟩ (not_unset_and_deploying e)
  unfold apply
  rw [applyIntegrationUnset_of_not e hu]
  simp only [applyIntegrationDeploying, h, if_true, hm, mapAssign, applyContextBuilding_eq]
  rfl

theorem apply_of_deploying_nil (c : BuilderPhases) (e : Environment)
    (h : integrationDeploying e = true) (hm : e.EnvVars = none) :
    apply c e = .error Panic.assignmentToNilMap := by
  have hu : integrationUnset e = false := by
    cases hu : integrationUnset e
    · rfl
    · exact absurd ⟨hu, h⟩ (not_unset_and_deploying e)
  unfold apply
  rw [applyIntegrationUnset_of_not e hu]
  simp only [applyIntegrationDeploying, h, if_true, hm, mapAssign]
  rfl

/-! ## Fields of the closed forms -/

@[simp] theorem withBuildSteps_Context (c : BuilderPhases) (e : Environment) :
    (withBuildSteps c e).Context = e.Context := by
  unfold withBuildSteps; split <;> rfl

@[simp] theorem withBuildSteps_Integration (c : BuilderPhases) (e : Environment) :
    (withBuildSteps c e).Integration = e.Integration := by
  unfold withBuildSteps; split <;> rfl

@[simp] theorem withBuildSteps_EnvVars (c : BuilderPhases) (e : Environment) :
    (withBuildSteps c e).EnvVars = e.EnvVars := by
  unfold withBuildSteps; split <;> rfl

theorem withBuildSteps_Steps_of_building (c : BuilderPhases) (e : Environment)
    (h : contextBuilding e = true) :
    (withBuildSteps c e).Steps
      = (e.Steps ++ [initializeStep c, computeDependenciesStep c]).map (replaceStep c) := by
  simp [withBuildSteps, h]

theorem withBuildSteps_of_not_building (c : BuilderPhases) (e : Environment)
    (h : contextBuilding e = false) : withBuildSteps c e = e := by
  simp [withBuildSteps, h]

@[simp] theorem contextBuilding_withBuildSteps (c : BuilderPhases) (e : Environment) :
    contextBuilding (withBuildSteps c e) = contextBuilding e := by
  simp [contextBuilding]

@[simp] theorem integrationDeploying_withBuildSteps (c : BuilderPhases) (e : Environment) :
    integrationDeploying (withBuildSteps c e) = integrationDeploying e := by
  simp [integrationDeploying]

@[simp] theorem applyIntegrationUnset_Context (e : Environment) :
    (applyIntegrationUnset e).Context = e.Context := by
  unfold applyIntegrationUnset; split <;> rfl

@[simp] theorem applyIntegrationUnset_Steps (e : Environment) :
    (applyIntegrationUnset e).Steps = e.Steps := by
  unfold applyIntegrationUnset; split <;> rfl

@[simp] theorem applyIntegrationUnset_EnvVars (e : Environment) :
    (applyIntegrationUnset e).EnvVars = e.EnvVars := by
  unfold applyIntegrationUnset; split <;> rfl

/-! ## The dependency list -/

theorem mem_StringSliceUniqueAdd (l : List String) (v x : String) :
    x ∈ StringSliceUniqueAdd l v ↔ x ∈ l ∨ x = v := by
  unfold StringSliceUniqueAdd
  split
  · constructor
    · intro h; exact Or.inl h
    · rintro (h | h)
      · exact h
      · subst h; assumption
  · simp

theorem StringSliceUniqueAdd_of_mem (l : List String) (v : String) (h : v ∈ l) :
    StringSliceUniqueAdd l v = l := by
  simp [StringSliceUniqueAdd, h]

theorem nodup_StringSliceUniqueAdd (l : List String) (v : String) :
    (StringSliceUniqueAdd l v).Nodup ↔ l.Nodup := by
  unfold StringSliceUniqueAdd
  split
  · rfl
  · rename_i h
    rw [List.nodup_append]
    simp [h]

theorem sortStrings_perm (l : List String) : (sortStrings l).Perm l :=
  List.perm_insertionSort _ l

theorem sortStrings_sorted (l : List String) : (sortStrings l).Sorted (· ≤ ·) :=
  List.sorted_insertionSort _ l

theorem mem_sortStrings (l : List String) (x : String) : x ∈ sortStrings l ↔ x ∈ l :=
  (sortStrings_perm l).mem_iff

theorem sortStrings_of_sorted (l : List String) (h : l.Sorted (· ≤ ·)) : sortStrings l = l :=
  List.Sorted.insertionSort_eq h

theorem addRuntimeDependency_idem (it : Integration) :
    addRuntimeDependency (addRuntimeDependency it) = addRuntimeDependency it := by
  have hmem : "runtime:spring-boot"
      ∈ sortStrings (StringSliceUniqueAdd it.Spec.Dependencies "runtime:spring-boot") := by
    rw [mem_sortStrings, mem_StringSliceUniqueAdd]
    exact Or.inr rfl
  simp only [addRuntimeDependency]
  rw [StringSliceUniqueAdd_of_mem _ _ hmem, sortStrings_of_sorted _ (sortStrings_sorted _)]

theorem applyIntegrationUnset_idem (e : Environment) :
    applyIntegrationUnset (applyIntegrationUnset e) = applyIntegrationUnset e := by
  by_cases h : integrationUnset e = true
  · have h2 : integrationUnset (applyIntegrationUnset e) = true := by
      rw [integrationUnset_applyIntegrationUnset]; exact h
    rw [applyIntegrationUnset, if_pos h2]
    simp only [applyIntegrationUnset, h, if_true]
    cases e.Integration with
    | none => rfl
    | some it => simp [addRuntimeDependency_idem]
  · have h1 : integrationUnset e = false := by simpa using h
    rw [applyIntegrationUnset_of_not e h1, applyIntegrationUnset_of_not e h1]

theorem applyIntegrationUnset_Integration_congr (e e' : Environment)
    (h : e.Integration = e'.Integration) :
    (applyIntegrationUnset e).Integration = (applyIntegrationUnset e').Integration := by
  unfold applyIntegrationUnset integrationUnset
  rw [h]
  split
  · simp [h]
  · exact h

/-! ## The env-var map -/

theorem springBootEnv_idem (m : String → Option String) :
    springBootEnv (springBootEnv m) = springBootEnv m := by
  funext k
  unfold springBootEnv
  by_cases h1 : k = "LOADER_PATH"
  · subst h1; simp
  · by_cases h2 : k = "JAVA_MAIN_CLASS"
    · subst h2; simp [Function.update]
    · simp [Function.update, h1, h2]

/-! ## The Integration blocks in closed form -/

theorem integrationUnset_of_phase (e : Environment) (it : Integration)
    (h : e.Integration = some it) (hp : it.Status.Phase = "") : integrationUnset e = true := by
  simp [integrationUnset, h, hp]

theorem integrationDeploying_of_phase (e : Environment) (it : Integration)
    (h : e.Integration = some it) (hp : it.Status.Phase = IntegrationPhaseDeploying) :
    integrationDeploying e = true := by
  simp [integrationDeploying, h, hp]

theorem contextBuilding_of_phase (e : Environment) (ctx : IntegrationContext)
    (h : e.Context = some ctx) (hp : ctx.Status.Phase = IntegrationContextPhaseBuilding) :
    contextBuilding e = true := by
  simp [contextBuilding, h, hp]

theorem apply_of_unset (c : BuilderPhases) (e : Environment) (it : Integration)
    (h : e.Integration = some it) (hp : it.Status.Phase = "") :
    apply c e = .ok { env := withBuildSteps c
                        { e with Integration := some (addRuntimeDependency it) },
                      err := none } := by
  have hu := integrationUnset_of_phase e it h hp
  have hd : integrationDeploying e = false := by
    cases hd : integrationDeploying e
    · rfl
    · exact absurd ⟨hu, hd⟩ (not_unset_and_deploying e)
  rw [apply_of_not_deploying c e hd]
  simp [applyIntegrationUnset, hu, h]

theorem apply_Steps (c : BuilderPhases) (e : Environment) (r : Applied)
    (h : apply c e = .ok r) : r.env.Steps = (withBuildSteps c e).Steps ∧ r.err = none := by
  have key : ∀ e1 : Environment, e1.Context = e.Context → e1.Steps = e.Steps →
      (withBuildSteps c e1).Steps = (withBuildSteps c e).Steps := by
    intro e1 h1 h2
    have hb : contextBuilding e1 = contextBuilding e := by simp [contextBuilding, h1]
    unfold withBuildSteps
    rw [hb]
    split
    · simp [h2]
    · exact h2
  cases hd : integrationDeploying e with
  | false =>
    rw [apply_of_not_deploying c e hd] at h
    have hr := (Except.ok.inj h).symm
    subst hr
    exact ⟨key _ (by simp) (by simp), rfl⟩
  | true =>
    cases hm : e.EnvVars with
    | none =>
      rw [apply_of_deploying_nil c e hd hm] at h
      cases h
    | some m =>
      rw [apply_of_deploying c e m hd hm] at h
      have hr := (Except.ok.inj h).symm
      subst hr
      exact ⟨key _ rfl rfl, rfl⟩

theorem apply_returns (c : BuilderPhases) (e : Environment)
    (h : integrationDeploying e = true → e.EnvVars.isSome = true) :
    ∃ r, apply c e = .ok r := by
  cases hd : integrationDeploying e with
  | false => exact ⟨_, apply_of_not_deploying c e hd⟩
  | true =>
    cases hm : e.EnvVars with
    | none => simp [hm] at h; simp [h] at hd
    | some m => exact ⟨_, apply_of_deploying c e m hd hm⟩

theorem apply_building (c : BuilderPhases) (e : Environment) (ctx : IntegrationContext)
    (hmap : integrationDeploying e = true → e.EnvVars.isSome = true)
    (hctx : e.Context = some ctx) (hph : ctx.Status.Phase = IntegrationContextPhaseBuilding) :
    ∃ r, apply c e = .ok r ∧ r.err = none ∧
      r.env.Steps = e.Steps.map (replaceStep c)
        ++ [replaceStep c (initializeStep c), replaceStep c (computeDependenciesStep c)] := by
  obtain ⟨r, hr⟩ := apply_returns c e hmap
  obtain ⟨hs, he⟩ := apply_Steps c e r hr
  refine ⟨r, hr, he, ?_⟩
  rw [hs, withBuildSteps_Steps_of_building c e (contextBuilding_of_phase e ctx hctx hph)]
  simp

theorem replaceStep_initializeStep (c : BuilderPhases)
    (h : c.IntiPhase ≠ c.ProjectGenerationPhase) :
    replaceStep c (initializeStep c) = initializeStep c := by
  simp [replaceStep, initializeStep, NewStep, h]

theorem replaceStep_computeDependenciesStep (c : BuilderPhases)
    (h : c.ProjectBuildPhase + 1 ≠ c.ProjectGenerationPhase) :
    replaceStep c (computeDependenciesStep c) = computeDependenciesStep c := by
  simp [replaceStep, computeDependenciesStep, NewStep, h]

theorem replaceStep_phase (c : BuilderPhases) (s : Step) :
    (replaceStep c s).phase = s.phase := by
  unfold replaceStep
  split
  · rename_i h
    simp [generateStep, NewStep, h]
  · rfl

/-! ## The checked methods agree with the unchecked ones -/

theorem presentAnd_eq {α : Type} (p : Option α) (cond : α → Bool) :
    presentAnd p cond = .ok (match p with
      | some a => cond a
      | none => false) := by
  cases p <;> rfl

theorem appliesToChecked_eq (e : Environment) : appliesToChecked e = .ok (appliesTo e) := by
  unfold appliesToChecked appliesTo contextBuilding integrationDeploying integrationUnset
  simp only [presentAnd_eq]
  cases e.Context with
  | none =>
    cases e.Integration with
    | none => rfl
    | some it =>
      by_cases h1 : it.Status.Phase = IntegrationPhaseDeploying
      · simp [h1]; rfl
      · by_cases h2 : it.Status.Phase = ""
        · simp [h1, h2]; rfl
        · simp [h1, h2]; rfl
  | some ctx =>
    by_cases h0 : ctx.Status.Phase = IntegrationContextPhaseBuilding
    · simp [h0]; rfl
    · cases e.Integration with
      | none => simp [h0]; rfl
      | some it =>
        by_cases h1 : it.Status.Phase = IntegrationPhaseDeploying
        · simp [h0, h1]; rfl
        · by_cases h2 : it.Status.Phase = ""
          · simp [h0, h1, h2]; rfl
          · simp [h0, h1, h2]; rfl

theorem applyIntegrationUnsetChecked_eq (e : Environment) :
    applyIntegrationUnsetChecked e = .ok (applyIntegrationUnset e) := by
  unfold applyIntegrationUnsetChecked applyIntegrationUnset integrationUnset
  simp only [presentAnd_eq]
  cases h : e.Integration with
  | none => rfl
  | some it =>
    by_cases hp : it.Status.Phase = ""
    · simp [hp, deref, addRuntimeDependency]; rfl
    · simp [hp]; rfl

theorem applyIntegrationDeployingChecked_eq (e : Environment) :
    applyIntegrationDeployingChecked e = applyIntegrationDeploying e := by
  unfold applyIntegrationDeployingChecked applyIntegrationDeploying integrationDeploying
  simp only [presentAnd_eq]
  cases h : e.Integration with
  | none => rfl
  | some it =>
    by_cases hp : it.Status.Phase = IntegrationPhaseDeploying
    · simp [hp]; rfl
    · simp [hp]; rfl

theorem applyContextBuildingChecked_eq (c : BuilderPhases) (e : Environment) :
    applyContextBuildingChecked c e = applyContextBuilding c e := by
  unfold applyContextBuildingChecked applyContextBuilding contextBuilding
  simp only [presentAnd_eq]
  cases h : e.Context with
  | none => rfl
  | some ctx =>
    by_cases hp : ctx.Status.Phase = IntegrationContextPhaseBuilding
    · simp [hp]; rfl
    · simp [hp]; rfl

theorem applyChecked_eq (c : BuilderPhases) (e : Environment) :
    applyChecked c e = apply c e := by
  unfold applyChecked apply
  simp only [applyIntegrationUnsetChecked_eq, applyIntegrationDeployingChecked_eq,
    applyContextBuildingChecked_eq]
  rfl

theorem replaceProjectGenerator_returns (c : BuilderPhases) (steps : List Step) (i : Nat) :
    ∃ out, replaceProjectGenerator c steps i = .ok out ∧ out.length = steps.length := by
  by_cases hi : i ≤ steps.length
  · have h := replaceProjectGenerator_append c (steps.drop i) (steps.take i)
    rw [List.take_append_drop, List.length_take, Nat.min_eq_left hi] at h
    refine ⟨_, h, ?_⟩
    simp
    omega
  · refine ⟨steps, ?_, rfl⟩
    rw [replaceProjectGenerator]
    have : ¬ i < steps.length := by omega
    simp [this]

/-! ## Applicability, idempotence and frame, shared lemmas -/

theorem appliesTo_congr (e1 e2 : Environment)
    (hc : e1.Context.map (fun ctx => ctx.Status.Phase)
        = e2.Context.map (fun ctx => ctx.Status.Phase))
    (hi : e1.Integration.map (fun it => it.Status.Phase)
        = e2.Integration.map (fun it => it.Status.Phase)) :
    appliesTo e1 = appliesTo e2 := by
  have hb : contextBuilding e1 = contextBuilding e2 := by
    unfold contextBuilding
    cases h1 : e1.Context <;> cases h2 : e2.Context <;> simp [h1, h2] at hc ⊢
    rw [hc]
  have hd : integrationDeploying e1 = integrationDeploying e2 := by
    unfold integrationDeploying
    cases h1 : e1.Integration <;> cases h2 : e2.Integration <;> simp [h1, h2] at hi ⊢
    rw [hi]
  have hu : integrationUnset e1 = integrationUnset e2 := by
    unfold integrationUnset
    cases h1 : e1.Integration <;> cases h2 : e2.Integration <;> simp [h1, h2] at hi ⊢
    rw [hi]
  unfold appliesTo
  rw [hb, hd, hu]

theorem applyIntegrationUnset_Status (e : Environment) :
    (applyIntegrationUnset e).Integration.map (fun it => it.Status)
      = e.Integration.map (fun it => it.Status) := by
  unfold applyIntegrationUnset
  split
  · cases e.Integration <;> simp [addRuntimeDependency]
  · rfl

theorem applyTwice_of_not_building (c : BuilderPhases) (e : Environment)
    (hb : contextBuilding e = false) : applyTwice c e = apply c e := by
  cases hd : integrationDeploying e with
  | false =>
    have hb1 : contextBuilding (applyIntegrationUnset e) = false := by
      rw [contextBuilding_applyIntegrationUnset]; exact hb
    have hd1 : integrationDeploying (applyIntegrationUnset e) = false := by
      rw [integrationDeploying_applyIntegrationUnset]; exact hd
    have h1 : apply c e = .ok { env := applyIntegrationUnset e, err := none } := by
      rw [apply_of_not_deploying c e hd, withBuildSteps_of_not_building c _ hb1]
    have h2 : apply c (applyIntegrationUnset e)
        = .ok { env := applyIntegrationUnset e, err := none } := by
      have hb2 : contextBuilding (applyIntegrationUnset (applyIntegrationUnset e)) = false := by
        rw [contextBuilding_applyIntegrationUnset]; exact hb1
      rw [apply_of_not_deploying c _ hd1, withBuildSteps_of_not_building c _ hb2,
        applyIntegrationUnset_idem]
    unfold applyTwice
    rw [h1]
    exact h2
  | true =>
    cases hm : e.EnvVars with
    | none =>
      have h1 := apply_of_deploying_nil c e hd hm
      unfold applyTwice
      rw [h1]
      rfl
    | some m =>
      have hb1 : contextBuilding { e with EnvVars := some (springBootEnv m) } = false := hb
      have h1 : apply c e
          = .ok { env := { e with EnvVars := some (springBootEnv m) }, err := none } := by
        rw [apply_of_deploying c e m hd hm, withBuildSteps_of_not_building c _ hb1]
      have h2 : apply c { e with EnvVars := some (springBootEnv m) }
          = .ok { env := { e with EnvVars := some (springBootEnv m) }, err := none } := by
        have hd1 : integrationDeploying { e with EnvVars := some (springBootEnv m) } = true := hd
        have hb2 : contextBuilding
            { Context := e.Context, Integration := e.Integration, Steps := e.Steps,
              EnvVars := some (springBootEnv (springBootEnv m)) } = false := hb
        rw [apply_of_deploying c _ (springBootEnv m) hd1 rfl]
        show Except.ok (Applied.mk (withBuildSteps c
            ⟨e.Context, e.Integration, e.Steps, some (springBootEnv (springBootEnv m))⟩)
            none) = _
        rw [withBuildSteps_of_not_building c _ hb2, springBootEnv_idem]
      unfold applyTwice
      rw [h1]
      exact h2

theorem replaceStep_idem (c : BuilderPhases) (s : Step) :
    replaceStep c (replaceStep c s) = replaceStep c s := by
  unfold replaceStep
  by_cases h : s.phase = c.ProjectGenerationPhase
  · simp [h, generateStep, NewStep]
  · simp [h]

theorem apply_Context (c : BuilderPhases) (e : Environment) (r : Applied)
    (h : apply c e = .ok r) : r.env.Context = e.Context := by
  cases hd : integrationDeploying e with
  | false =>
    rw [apply_of_not_deploying c e hd] at h
    have hr := (Except.ok.inj h).symm
    subst hr
    simp
  | true =>
    cases hm : e.EnvVars with
    | none =>
      rw [apply_of_deploying_nil c e hd hm] at h
      cases h
    | some m =>
      rw [apply_of_deploying c e m hd hm] at h
      have hr := (Except.ok.inj h).symm
      subst hr
      simp

theorem contextBuilding_congr (e1 e2 : Environment) (h : e1.Context = e2.Context) :
    contextBuilding e1 = contextBuilding e2 := by
  unfold contextBuilding
  rw [h]

theorem apply_Steps_of_building (c : BuilderPhases) (e : Environment) (r : Applied)
    (h : apply c e = .ok r) (hb : contextBuilding e = true) :
    r.env.Steps = e.Steps.map (replaceStep c)
      ++ [replaceStep c (initializeStep c), replaceStep c (computeDependenciesStep c)] := by
  rw [(apply_Steps c e r h).1, withBuildSteps_Steps_of_building c e hb]
  simp

theorem apply_Steps_of_not_building (c : BuilderPhases) (e : Environment) (r : Applied)
    (h : apply c e = .ok r) (hb : contextBuilding e = false) :
    r.env.Steps = e.Steps := by
  rw [(apply_Steps c e r h).1, withBuildSteps_of_not_building c e hb]

theorem apply_of_applyTwice (c : BuilderPhases) (e : Environment) (r r2 : Applied)
    (h : apply c e = .ok r) (h2 : applyTwice c e = .ok r2) : apply c r.env = .ok r2 := by
  unfold applyTwice at h2
  rw [h] at h2
  exact h2

theorem apply_Integration (c : BuilderPhases) (e : Environment) (r : Applied)
    (h : apply c e = .ok r) :
    r.env.Integration
      = (if integrationUnset e = true then e.Integration.map addRuntimeDependency
         else e.Integration) := by
  have hu : (applyIntegrationUnset e).Integration
      = (if integrationUnset e = true then e.Integration.map addRuntimeDependency
         else e.Integration) := by
    unfold applyIntegrationUnset
    split <;> rfl
  cases hd : integrationDeploying e with
  | false =>
    rw [apply_of_not_deploying c e hd] at h
    have hr := (Except.ok.inj h).symm
    subst hr
    show (withBuildSteps c (applyIntegrationUnset e)).Integration = _
    rw [withBuildSteps_Integration, hu]
  | true =>
    have hnu : integrationUnset e = false := by
      cases hnu : integrationUnset e
      · rfl
      · exact absurd ⟨hnu, hd⟩ (not_unset_and_deploying e)
    cases hm : e.EnvVars with
    | none =>
      rw [apply_of_deploying_nil c e hd hm] at h
      cases h
    | some m =>
      rw [apply_of_deploying c e m hd hm] at h
      have hr := (Except.ok.inj h).symm
      subst hr
      show (withBuildSteps c _).Integration = _
      rw [withBuildSteps_Integration]
      simp [hnu]

theorem apply_EnvVars (c : BuilderPhases) (e : Environment) (r : Applied)
    (h : apply c e = .ok r) :
    r.env.EnvVars
      = (if integrationDeploying e = true then e.EnvVars.map springBootEnv else e.EnvVars) := by
  cases hd : integrationDeploying e with
  | false =>
    rw [apply_of_not_deploying c e hd] at h
    have hr := (Except.ok.inj h).symm
    subst hr
    show (withBuildSteps c (applyIntegrationUnset e)).EnvVars = _
    simp
  | true =>
    cases hm : e.EnvVars with
    | none =>
      rw [apply_of_deploying_nil c e hd hm] at h
      cases h
    | some m =>
      rw [apply_of_deploying c e m hd hm] at h
      have hr := (Except.ok.inj h).symm
      subst hr
      show (withBuildSteps c _).EnvVars = _
      simp

theorem apply_Steps_eq (c : BuilderPhases) (e : Environment) (r : Applied)
    (h : apply c e = .ok r) :
    r.env.Steps
      = (if contextBuilding e = true then
          (e.Steps ++ [initializeStep c, computeDependenciesStep c]).map (replaceStep c)
         else e.Steps) := by
  rw [(apply_Steps c e r h).1]
  unfold withBuildSteps
  split <;> rfl

theorem apply_panics_only_on_nil_map (c : BuilderPhases) (e : Environment) (p : Panic)
    (h : apply c e = .error p) :
    p = Panic.assignmentToNilMap ∧ integrationDeploying e = true ∧ e.EnvVars = none ∧
      integrationUnset e = false := by
  cases hd : integrationDeploying e with
  | false =>
    rw [apply_of_not_deploying c e hd] at h
    cases h
  | true =>
    have hnu : integrationUnset e = false := by
      cases hnu : integrationUnset e
      · rfl
      · exact absurd ⟨hnu, hd⟩ (not_unset_and_deploying e)
    cases hm : e.EnvVars with
    | none =>
      rw [apply_of_deploying_nil c e hd hm] at h
      exact ⟨(Except.error.inj h).symm, rfl, rfl, hnu⟩
    | some m =>
      rw [apply_of_deploying c e m hd hm] at h
      cases h

/-! ## Claims -/

/-- C1: `appliesTo` returns true exactly when the Context is present in the Building phase,
or the Integration is present in the Deploying phase, or the Integration is present with the
empty phase; in every other case it returns false. -/
theorem appliesTo_iff (e : Environment) :
    (appliesTo e = true ↔
      ((∃ ctx, e.Context = some ctx ∧ ctx.Status.Phase = IntegrationContextPhaseBuilding) ∨
       (∃ it, e.Integration = some it ∧ it.Status.Phase = IntegrationPhaseDeploying) ∨
       (∃ it, e.Integration = some it ∧ it.Status.Phase = ""))) ∧
    (appliesTo e = false ↔
      ¬ ((∃ ctx, e.Context = some ctx ∧ ctx.Status.Phase = IntegrationContextPhaseBuilding) ∨
         (∃ it, e.Integration = some it ∧ it.Status.Phase = IntegrationPhaseDeploying) ∨
         (∃ it, e.Integration = some it ∧ it.Status.Phase = ""))) := by
  have key : appliesTo e = true ↔
      ((∃ ctx, e.Context = some ctx ∧ ctx.Status.Phase = IntegrationContextPhaseBuilding) ∨
       (∃ it, e.Integration = some it ∧ it.Status.Phase = IntegrationPhaseDeploying) ∨
       (∃ it, e.Integration = some it ∧ it.Status.Phase = "")) := by
    unfold appliesTo contextBuilding integrationDeploying integrationUnset
    cases hc : e.Context <;> cases hi : e.Integration <;> simp
  refine ⟨key, ?_⟩
  rw [← key]
  cases appliesTo e <;> simp

/-- C2: when `appliesTo e` is false, `apply` returns no error and leaves the Environment, hence
its step registry, env-var map and dependency list, exactly as it was. -/
theorem apply_of_not_appliesTo (c : BuilderPhases) (e : Environment)
    (h : appliesTo e = false) :
    apply c e = .ok { env := e, err := none } := by
  unfold appliesTo at h
  have hb : contextBuilding e = false := by
    cases hb : contextBuilding e
    · rfl
    · simp [hb] at h
  have hd : integrationDeploying e = false := by
    cases hd : integrationDeploying e
    · rfl
    · simp [hd] at h
  have hu : integrationUnset e = false := by
    cases hu : integrationUnset e
    · rfl
    · simp [hu] at h
  rw [apply_of_not_deploying c e hd, applyIntegrationUnset_of_not e hu,
    withBuildSteps_of_not_building c e hb]

/-- Witness for C2: an Environment with a running Integration and a ready BuildContext. -/
theorem apply_of_not_appliesTo_witness :
    appliesTo runningEnv = false ∧
      apply samplePhases runningEnv = .ok { env := runningEnv, err := none } :=
  ⟨by decide, apply_of_not_appliesTo samplePhases runningEnv (by decide)⟩

/-- C3, as stated, fails: from a Building-phase BuildContext with an empty registry one
application leaves two steps and a second application leaves four. -/
theorem applyTwice_building_ne_apply :
    ∃ r1 r2, apply samplePhases buildingEnv = .ok r1 ∧
      applyTwice samplePhases buildingEnv = .ok r2 ∧
      r1.env.Steps = [initializeStep samplePhases, computeDependenciesStep samplePhases] ∧
      r2.env.Steps = [initializeStep samplePhases, computeDependenciesStep samplePhases,
                      initializeStep samplePhases, computeDependenciesStep samplePhases] ∧
      r2.env.Steps ≠ r1.env.Steps := by
  have h1 : apply samplePhases buildingEnv
      = .ok { env := withBuildSteps samplePhases (applyIntegrationUnset buildingEnv),
              err := none } :=
    apply_of_not_deploying samplePhases buildingEnv (by decide)
  have h2 : apply samplePhases (withBuildSteps samplePhases (applyIntegrationUnset buildingEnv))
      = .ok { env := withBuildSteps samplePhases (applyIntegrationUnset
                (withBuildSteps samplePhases (applyIntegrationUnset buildingEnv))),
              err := none } :=
    apply_of_not_deploying samplePhases _ (by decide)
  refine ⟨{ env := withBuildSteps samplePhases (applyIntegrationUnset buildingEnv),
            err := none },
    { env := withBuildSteps samplePhases (applyIntegrationUnset
                (withBuildSteps samplePhases (applyIntegrationUnset buildingEnv))),
      err := none }, h1, ?_, ?_, ?_, ?_⟩
  · unfold applyTwice
    rw [h1]
    exact h2
  · decide
  · decide
  · decide

/-- A second application returns whenever the first did, and leaves the Integration and the
env-var map as the first left them. -/
theorem applyTwice_fields (c : BuilderPhases) (e : Environment) (r : Applied)
    (h : apply c e = .ok r) :
    ∃ r2, applyTwice c e = .ok r2 ∧ r2.err = none ∧
      r2.env.Integration = r.env.Integration ∧
      r2.env.EnvVars = r.env.EnvVars ∧
      (contextBuilding e = false → r2.env.Steps = r.env.Steps) ∧
      (contextBuilding e = true → r2.env.Steps.length = r.env.Steps.length + 2) := by
  have hlen : ∀ e1 : Environment, contextBuilding e1 = true →
      (withBuildSteps c e1).Steps.length = e1.Steps.length + 2 := by
    intro e1 hb
    rw [withBuildSteps_Steps_of_building c e1 hb]
    simp
  cases hd : integrationDeploying e with
  | false =>
    have h1 := apply_of_not_deploying c e hd
    rw [h1] at h
    have hr : r = { env := withBuildSteps c (applyIntegrationUnset e), err := none } :=
      (Except.ok.inj h).symm
    have hd2 : integrationDeploying (withBuildSteps c (applyIntegrationUnset e)) = false := by
      rw [integrationDeploying_withBuildSteps, integrationDeploying_applyIntegrationUnset]
      exact hd
    have h2 := apply_of_not_deploying c _ hd2
    refine ⟨{ env := withBuildSteps c (applyIntegrationUnset
                (withBuildSteps c (applyIntegrationUnset e))), err := none },
      ?_, rfl, ?_, ?_, ?_, ?_⟩
    · unfold applyTwice
      rw [h1]
      exact h2
    · subst hr
      show (withBuildSteps c _).Integration = (withBuildSteps c _).Integration
      rw [withBuildSteps_Integration, withBuildSteps_Integration,
        applyIntegrationUnset_Integration_congr _ (applyIntegrationUnset e)
          (withBuildSteps_Integration c _),
        applyIntegrationUnset_idem]
    · subst hr
      simp
    · intro hb
      subst hr
      have hb1 : contextBuilding (applyIntegrationUnset e) = false := by
        rw [contextBuilding_applyIntegrationUnset]; exact hb
      rw [withBuildSteps_of_not_building c (applyIntegrationUnset e) hb1]
      have hb2 : contextBuilding (applyIntegrationUnset (applyIntegrationUnset e)) = false := by
        rw [contextBuilding_applyIntegrationUnset]; exact hb1
      rw [withBuildSteps_of_not_building c _ hb2]
      simp
    · intro hb
      subst hr
      have hb2 : contextBuilding
          (applyIntegrationUnset (withBuildSteps c (applyIntegrationUnset e))) = true := by
        rw [contextBuilding_applyIntegrationUnset, contextBuilding_withBuildSteps,
          contextBuilding_applyIntegrationUnset]
        exact hb
      show (withBuildSteps c _).Steps.length = _
      rw [hlen _ hb2]
      simp
  | true =>
    cases hm : e.EnvVars with
    | none =>
      rw [apply_of_deploying_nil c e hd hm] at h
      cases h
    | some m =>
      have h1 := apply_of_deploying c e m hd hm
      rw [h1] at h
      have hr : r = { env := withBuildSteps c { e with EnvVars := some (springBootEnv m) },
                      err := none } := (Except.ok.inj h).symm
      have hd2 : integrationDeploying
          (withBuildSteps c { e with EnvVars := some (springBootEnv m) }) = true := by
        rw [integrationDeploying_withBuildSteps]
        exact hd
      have h2 := apply_of_deploying c _ (springBootEnv m) hd2 (by simp)
      refine ⟨{ env := withBuildSteps c
                  { withBuildSteps c { e with EnvVars := some (springBootEnv m) } with
                    EnvVars := some (springBootEnv (springBootEnv m)) }, err := none },
        ?_, rfl, ?_, ?_, ?_, ?_⟩
      · unfold applyTwice
        rw [h1]
        exact h2
      · subst hr
        simp
      · subst hr
        simp [springBootEnv_idem]
      · intro hb
        subst hr
        have hb1 : contextBuilding { e with EnvVars := some (springBootEnv m) } = false := hb
        rw [withBuildSteps_of_not_building c _ hb1]
        have hb2 : contextBuilding
            { e with EnvVars := some (springBootEnv (springBootEnv m)) } = false := hb
        show (withBuildSteps c _).Steps = _
        rw [withBuildSteps_of_not_building c _ hb2]
      · intro hb
        subst hr
        have hb2 : contextBuilding
            { withBuildSteps c { e with EnvVars := some (springBootEnv m) } with
              EnvVars := some (springBootEnv (springBootEnv m)) } = true := by
          have : contextBuilding (withBuildSteps c { e with EnvVars := some (springBootEnv m) })
              = true := by
            rw [contextBuilding_withBuildSteps]; exact hb
          exact this
        show (withBuildSteps c _).Steps.length = _
        rw [hlen _ hb2]

/-- C3, amended: whenever `apply` returns, a second application returns too, reports no error
and leaves the Integration (so its dependency list) and the env-var map as the first
application left them.  The step registry is also left as it was when the BuildContext is
not in the Building phase.  In the Building phase it is not: the second application appends
again the two steps the first one appended, so the registry after two applications is the
registry after one followed by these two steps, `initialize/spring-boot` and
`build/compute-boot-dependencies` when their phases differ from `ProjectGenerationPhase`. -/
theorem applyTwice_state (c : BuilderPhases) (e : Environment) (r : Applied)
    (h : apply c e = .ok r) :
    ∃ r2, applyTwice c e = .ok r2 ∧ r2.err = none ∧
      r2.env.Integration = r.env.Integration ∧
      r2.env.EnvVars = r.env.EnvVars ∧
      (contextBuilding e = false → r2.env.Steps = r.env.Steps) ∧
      (contextBuilding e = true →
        ∃ s1 s2, r.env.Steps.drop e.Steps.length = [s1, s2] ∧
          r2.env.Steps = r.env.Steps ++ [s1, s2] ∧
          r2.env.Steps ≠ r.env.Steps ∧
          (c.IntiPhase ≠ c.ProjectGenerationPhase →
            s1 = ⟨"initialize/spring-boot", c.IntiPhase, Task.Initialize⟩) ∧
          (c.ProjectBuildPhase + 1 ≠ c.ProjectGenerationPhase →
            s2 = ⟨"build/compute-boot-dependencies", c.ProjectBuildPhase + 1,
                  Task.ComputeDependencies⟩)) := by
  obtain ⟨r2, h2, herr, hI, hE, hS, _⟩ := applyTwice_fields c e r h
  refine ⟨r2, h2, herr, hI, hE, hS, ?_⟩
  intro hb
  have h2' := apply_of_applyTwice c e r r2 h h2
  have hb' : contextBuilding r.env = true := by
    rw [contextBuilding_congr r.env e (apply_Context c e r h)]; exact hb
  have hs1 := apply_Steps_of_building c e r h hb
  have hs2 := apply_Steps_of_building c r.env r2 h2' hb'
  have hfix : r.env.Steps.map (replaceStep c) = r.env.Steps := by
    rw [hs1]
    simp [replaceStep_idem]
  rw [hfix] at hs2
  refine ⟨replaceStep c (initializeStep c), replaceStep c (computeDependenciesStep c),
    ?_, hs2, ?_, ?_, ?_⟩
  · rw [hs1]
    have hl : (e.Steps.map (replaceStep c)).length = e.Steps.length := by simp
    rw [← hl, List.drop_left']
    rfl
  · intro heq
    have := congrArg List.length heq
    rw [hs2] at this
    simp at this
  · intro hne
    rw [replaceStep_initializeStep c hne]
    rfl
  · intro hne
    rw [replaceStep_computeDependenciesStep c hne]
    rfl

/-- Witness for C3 amended: the Building-phase Environment of the counterexample. -/
theorem applyTwice_state_witness :
    ∃ r2, applyTwice samplePhases buildingEnv = .ok r2 ∧ r2.err = none ∧
      r2.env.Integration = none ∧
      r2.env.EnvVars = emptyEnvVars ∧
      (contextBuilding buildingEnv = false → r2.env.Steps
        = [initializeStep samplePhases, computeDependenciesStep samplePhases]) ∧
      (contextBuilding buildingEnv = true →
        ∃ s1 s2, [initializeStep samplePhases, computeDependenciesStep samplePhases].drop 0
            = [s1, s2] ∧
          r2.env.Steps
            = [initializeStep samplePhases, computeDependenciesStep samplePhases] ++ [s1, s2] ∧
          r2.env.Steps ≠ [initializeStep samplePhases, computeDependenciesStep samplePhases] ∧
          ((0 : Int) ≠ 10 → s1 = ⟨"initialize/spring-boot", 0, Task.Initialize⟩) ∧
          ((20 : Int) + 1 ≠ 10 →
            s2 = ⟨"build/compute-boot-dependencies", 20 + 1, Task.ComputeDependencies⟩)) :=
  applyTwice_state samplePhases buildingEnv
    { env := withBuildSteps samplePhases (applyIntegrationUnset buildingEnv), err := none }
    (apply_of_not_deploying samplePhases buildingEnv (by decide))

/-- C4, as stated, fails: with a Building-phase BuildContext next to a Deploying-phase
Integration both guards hold, and one call of `apply` both writes the env-var map and extends
the step registry. -/
theorem building_and_deploying_both_fire :
    contextBuilding buildingDeployingEnv = true ∧
    integrationDeploying buildingDeployingEnv = true ∧
    ∃ r m, apply samplePhases buildingDeployingEnv = .ok r ∧
      r.env.Steps = [initializeStep samplePhases, computeDependenciesStep samplePhases] ∧
      r.env.EnvVars = some m ∧
      m "JAVA_MAIN_CLASS" = some "org.springframework.boot.loader.PropertiesLauncher" := by
  refine ⟨by decide, by decide, _, springBootEnv (fun _ => none),
    apply_of_deploying samplePhases buildingDeployingEnv (fun _ => none) (by decide) rfl,
    by decide, rfl, by decide⟩

/-- C4, amended: the two Integration blocks of `apply` never fire in the same call, so at
most two of the three blocks fire.  Whether a block fires depends on its own guard only:
whenever `apply` returns, the Integration is rewritten exactly when the unset guard holds, the
env-var map exactly when the Deploying guard holds and the registry exactly when the Building
guard holds.  So the Building block fires together with an Integration block when both
resources are present in matching phases, and both combinations occur. -/
theorem apply_blocks_by_own_guard (c : BuilderPhases) (e : Environment) :
    ¬ (integrationUnset e = true ∧ integrationDeploying e = true) ∧
    (∀ r, apply c e = .ok r →
      r.env.Integration
        = (if integrationUnset e = true then e.Integration.map addRuntimeDependency
           else e.Integration) ∧
      r.env.EnvVars
        = (if integrationDeploying e = true then e.EnvVars.map springBootEnv
           else e.EnvVars) ∧
      r.env.Steps
        = (if contextBuilding e = true then
            (e.Steps ++ [initializeStep c, computeDependenciesStep c]).map (replaceStep c)
           else e.Steps)) ∧
    ((integrationDeploying e = true → e.EnvVars.isSome = true) → ∃ r, apply c e = .ok r) ∧
    (∃ r, apply c buildingDeployingEnv = .ok r ∧
      contextBuilding buildingDeployingEnv = true ∧
      integrationDeploying buildingDeployingEnv = true ∧
      r.env.Steps.length = buildingDeployingEnv.Steps.length + 2 ∧
      r.env.EnvVars = some (springBootEnv (fun _ => none))) ∧
    (∃ r, apply c buildingUnsetEnv = .ok r ∧
      contextBuilding buildingUnsetEnv = true ∧
      integrationUnset buildingUnsetEnv = true ∧
      r.env.Steps.length = buildingUnsetEnv.Steps.length + 2 ∧
      r.env.Integration = buildingUnsetEnv.Integration.map addRuntimeDependency) := by
  refine ⟨not_unset_and_deploying e,
    fun r hr => ⟨apply_Integration c e r hr, apply_EnvVars c e r hr, apply_Steps_eq c e r hr⟩,
    apply_returns c e, ?_, ?_⟩
  · obtain ⟨r, hr⟩ := apply_returns c buildingDeployingEnv (fun _ => rfl)
    refine ⟨r, hr, by decide, by decide, ?_, ?_⟩
    · rw [apply_Steps_of_building c _ r hr (by decide)]
      simp
    · rw [apply_EnvVars c _ r hr]
      rfl
  · obtain ⟨r, hr⟩ := apply_returns c buildingUnsetEnv (fun h => absurd h (by decide))
    refine ⟨r, hr, by decide, by decide, ?_, ?_⟩
    · rw [apply_Steps_of_building c _ r hr (by decide)]
      simp
    · rw [apply_Integration c _ r hr]
      rfl

/-- Witness for C4 amended: the Environment of the counterexample, where the Deploying and
the Building block both fire and the unset block does not. -/
theorem apply_blocks_by_own_guard_witness :
    ∃ r, apply samplePhases buildingDeployingEnv = .ok r ∧
      r.env.Integration = buildingDeployingEnv.Integration ∧
      r.env.EnvVars = some (springBootEnv (fun _ => none)) ∧
      r.env.Steps = [initializeStep samplePhases, computeDependenciesStep samplePhases] := by
  obtain ⟨r, hr⟩ :=
    (apply_blocks_by_own_guard samplePhases buildingDeployingEnv).2.2.1 (fun _ => rfl)
  obtain ⟨h1, h2, h3⟩ := (apply_blocks_by_own_guard samplePhases buildingDeployingEnv).2.1 r hr
  refine ⟨r, hr, ?_, ?_, ?_⟩
  · rw [h1]; rfl
  · rw [h2]; rfl
  · rw [h3]; decide

/-- C5, as stated, fails: duplicates already in the list survive.  From `["a", "a"]` the
unset-phase block leaves `["a", "a", "runtime:spring-boot"]`. -/
theorem apply_unset_keeps_duplicates :
    ∃ r, apply samplePhases duplicateDepsEnv = .ok r ∧
      r.env.Integration = some ⟨⟨["a", "a", "runtime:spring-boot"]⟩, ⟨""⟩⟩ ∧
      ¬ (["a", "a", "runtime:spring-boot"] : List String).Nodup := by
  refine ⟨_, apply_of_unset samplePhases duplicateDepsEnv ⟨⟨["a", "a"]⟩, ⟨""⟩⟩ rfl rfl, ?_,
    by decide⟩
  have hs : sortStrings (StringSliceUniqueAdd ["a", "a"] "runtime:spring-boot")
      = ["a", "a", "runtime:spring-boot"] := by
    have h1 : StringSliceUniqueAdd ["a", "a"] "runtime:spring-boot"
        = ["a", "a", "runtime:spring-boot"] := by decide
    rw [h1]
    simp [sortStrings]
  simp [addRuntimeDependency, hs]

/-- C5, amended: for every dependency list of an Integration in the unset phase, after
`apply` the list is sorted ascending, and it is free of duplicates exactly when the input
list was. -/
theorem apply_unset_sorted (c : BuilderPhases) (e : Environment) (it : Integration)
    (h : e.Integration = some it) (hp : it.Status.Phase = "") :
    ∃ r it', apply c e = .ok r ∧ r.env.Integration = some it' ∧
      it'.Spec.Dependencies.Sorted (· ≤ ·) ∧
      (it'.Spec.Dependencies.Nodup ↔ it.Spec.Dependencies.Nodup) := by
  refine ⟨_, addRuntimeDependency it, apply_of_unset c e it h hp, by simp, ?_, ?_⟩
  · exact sortStrings_sorted _
  · show (sortStrings _).Nodup ↔ _
    rw [(sortStrings_perm _).nodup_iff, nodup_StringSliceUniqueAdd]

/-- Witness for C5 amended: the list `["a", "a"]`. -/
theorem apply_unset_sorted_witness :
    ∃ r it', apply samplePhases duplicateDepsEnv = .ok r ∧ r.env.Integration = some it' ∧
      it'.Spec.Dependencies.Sorted (· ≤ ·) ∧
      (it'.Spec.Dependencies.Nodup ↔ (["a", "a"] : List String).Nodup) :=
  apply_unset_sorted samplePhases duplicateDepsEnv ⟨⟨["a", "a"]⟩, ⟨""⟩⟩ rfl rfl

/-- C6: for a duplicate-free dependency list of an Integration in the unset phase, after
`apply` the list is sorted ascending, duplicate-free, and its elements are exactly those of
the input list together with `runtime:spring-boot`. -/
theorem apply_unset_nodup (c : BuilderPhases) (e : Environment) (it : Integration)
    (h : e.Integration = some it) (hp : it.Status.Phase = "")
    (hn : it.Spec.Dependencies.Nodup) :
    ∃ r it', apply c e = .ok r ∧ r.env.Integration = some it' ∧
      it'.Status = it.Status ∧
      it'.Spec.Dependencies.Sorted (· ≤ ·) ∧
      it'.Spec.Dependencies.Nodup ∧
      ∀ x, x ∈ it'.Spec.Dependencies ↔ (x ∈ it.Spec.Dependencies ∨ x = "runtime:spring-boot") := by
  refine ⟨_, addRuntimeDependency it, apply_of_unset c e it h hp, by simp, rfl, ?_, ?_, ?_⟩
  · exact sortStrings_sorted _
  · show (sortStrings _).Nodup
    rw [(sortStrings_perm _).nodup_iff, nodup_StringSliceUniqueAdd]
    exact hn
  · intro x
    show x ∈ sortStrings _ ↔ _
    rw [mem_sortStrings, mem_StringSliceUniqueAdd]

/-- Witness for C6: the spec's scenario, where `["b-lib"]` becomes
`["b-lib", "runtime:spring-boot"]`. -/
theorem apply_unset_nodup_witness :
    (["b-lib"] : List String).Nodup ∧
    (∃ r it', apply samplePhases bLibEnv = .ok r ∧ r.env.Integration = some it' ∧
      it'.Status = ⟨""⟩ ∧
      it'.Spec.Dependencies.Sorted (· ≤ ·) ∧
      it'.Spec.Dependencies.Nodup ∧
      ∀ x, x ∈ it'.Spec.Dependencies ↔ (x ∈ ["b-lib"] ∨ x = "runtime:spring-boot")) ∧
    (∃ r, apply samplePhases bLibEnv = .ok r ∧
      r.env.Integration = some ⟨⟨["b-lib", "runtime:spring-boot"]⟩, ⟨""⟩⟩) := by
  refine ⟨by decide,
    apply_unset_nodup samplePhases bLibEnv ⟨⟨["b-lib"]⟩, ⟨""⟩⟩ rfl rfl (by decide),
    _, apply_of_unset samplePhases bLibEnv ⟨⟨["b-lib"]⟩, ⟨""⟩⟩ rfl rfl, ?_⟩
  have hs : sortStrings (StringSliceUniqueAdd ["b-lib"] "runtime:spring-boot")
      = ["b-lib", "runtime:spring-boot"] := by
    have h1 : StringSliceUniqueAdd ["b-lib"] "runtime:spring-boot"
        = ["b-lib", "runtime:spring-boot"] := by decide
    rw [h1]
    simp [sortStrings]
    decide
  simp [addRuntimeDependency, hs]

/-- C7, as stated, fails: with the Integration in the Deploying phase and the nil env-var map,
the assignment of line 81 panics, so there is no env-var map after `apply` that sends
`JAVA_MAIN_CLASS` anywhere. -/
theorem apply_deploying_nil_map_no_envVars :
    integrationDeploying deployingLibNilMapEnv = true ∧
    apply samplePhases deployingLibNilMapEnv = .error Panic.assignmentToNilMap ∧
    ¬ ∃ r m', apply samplePhases deployingLibNilMapEnv = .ok r ∧
      r.env.EnvVars = some m' ∧
      m' "JAVA_MAIN_CLASS" = some "org.springframework.boot.loader.PropertiesLauncher" := by
  have h := apply_of_deploying_nil samplePhases deployingLibNilMapEnv (by decide) rfl
  refine ⟨by decide, h, ?_⟩
  rintro ⟨r, m', hr, _⟩
  rw [h] at hr
  cases hr

/-- C7, amended: for an Integration in the Deploying phase and an initialised env-var map `m`,
`apply` returns, and after it the map sends `JAVA_MAIN_CLASS` to
`org.springframework.boot.loader.PropertiesLauncher` and `LOADER_PATH` to
`/deployments/dependencies/`, and every other key keeps the value it had in `m` (absent keys
stay absent). -/
theorem apply_deploying_envVars (c : BuilderPhases) (e : Environment) (it : Integration)
    (m : String → Option String)
    (h : e.Integration = some it) (hp : it.Status.Phase = IntegrationPhaseDeploying)
    (hm : e.EnvVars = some m) :
    ∃ r m', apply c e = .ok r ∧ r.err = none ∧ r.env.EnvVars = some m' ∧
      m' "JAVA_MAIN_CLASS" = some "org.springframework.boot.loader.PropertiesLauncher" ∧
      m' "LOADER_PATH" = some "/deployments/dependencies/" ∧
      ∀ k, k ≠ "JAVA_MAIN_CLASS" → k ≠ "LOADER_PATH" → m' k = m k := by
  refine ⟨_, springBootEnv m,
    apply_of_deploying c e m (integrationDeploying_of_phase e it h hp) hm, rfl, by simp,
    ?_, ?_, ?_⟩
  · simp [springBootEnv, Function.update]
  · simp [springBootEnv]
  · intro k h1 h2
    simp [springBootEnv, Function.update, h1, h2]

/-- Witness for C7 amended: the spec's scenario.  Starting from the empty map the result holds the
two entries and nothing else. -/
theorem apply_deploying_envVars_witness :
    ∃ r m', apply samplePhases deployingEnv = .ok r ∧ r.err = none ∧
      r.env.EnvVars = some m' ∧
      m' "JAVA_MAIN_CLASS" = some "org.springframework.boot.loader.PropertiesLauncher" ∧
      m' "LOADER_PATH" = some "/deployments/dependencies/" ∧
      ∀ k, k ≠ "JAVA_MAIN_CLASS" → k ≠ "LOADER_PATH" → m' k = none :=
  apply_deploying_envVars samplePhases deployingEnv ⟨⟨["b-lib"]⟩, ⟨"Deploying"⟩⟩
    (fun _ => none) rfl rfl rfl

/-- C8, as stated, fails: with a Deploying-phase Integration and the nil env-var map next to
the Building-phase BuildContext, `apply` panics at line 81, before the Building block, so it
returns no registry of length `len(S) + 2`. -/
theorem apply_building_single_generator_nil_map :
    contextBuilding singleGeneratorNilMapEnv = true ∧
    singleGeneratorNilMapEnv.Steps.map (fun s => s.phase) = [0, 10, 20] ∧
    samplePhases.ProjectGenerationPhase = 10 ∧
    apply samplePhases singleGeneratorNilMapEnv = .error Panic.assignmentToNilMap ∧
    ¬ ∃ r, apply samplePhases singleGeneratorNilMapEnv = .ok r ∧
      r.env.Steps.length = singleGeneratorNilMapEnv.Steps.length + 2 := by
  have h := apply_of_deploying_nil samplePhases singleGeneratorNilMapEnv (by decide) rfl
  refine ⟨by decide, by decide, rfl, h, ?_⟩
  rintro ⟨r, hr, _⟩
  rw [h] at hr
  cases hr

/-- C8, amended: for a Building-phase BuildContext whose registry `S` holds exactly one step at
`ProjectGenerationPhase`, at index `k`, and whose env-var map is initialised if the
Integration is in the Deploying phase, `apply` returns a registry of length `len(S) + 2` in
which index `k` holds the step `generate/spring-boot` at `ProjectGenerationPhase`, every other
index below `len(S)` holds the step it held before, and the last two entries are
`initialize/spring-boot` and `build/compute-boot-dependencies`, in that order.  The phases of
the two appended steps are taken to differ from `ProjectGenerationPhase` (the loop scans them
too). -/
theorem apply_building_single_generator (c : BuilderPhases) (e : Environment)
    (ctx : IntegrationContext) (k : Nat) (s : Step)
    (hInit : c.IntiPhase ≠ c.ProjectGenerationPhase)
    (hBuild : c.ProjectBuildPhase + 1 ≠ c.ProjectGenerationPhase)
    (hmap : integrationDeploying e = true → e.EnvVars.isSome = true)
    (hctx : e.Context = some ctx) (hph : ctx.Status.Phase = IntegrationContextPhaseBuilding)
    (hk : e.Steps[k]? = some s) (hs : s.phase = c.ProjectGenerationPhase)
    (huniq : ∀ (i : Nat) (s' : Step),
      e.Steps[i]? = some s' → s'.phase = c.ProjectGenerationPhase → i = k) :
    ∃ r, apply c e = .ok r ∧ r.err = none ∧
      r.env.Steps.length = e.Steps.length + 2 ∧
      r.env.Steps[k]?
        = some ⟨"generate/spring-boot", c.ProjectGenerationPhase, Task.GenerateProject⟩ ∧
      (∀ i : Nat, i < e.Steps.length → i ≠ k → r.env.Steps[i]? = e.Steps[i]?) ∧
      r.env.Steps[e.Steps.length]?
        = some ⟨"initialize/spring-boot", c.IntiPhase, Task.Initialize⟩ ∧
      r.env.Steps[e.Steps.length + 1]?
        = some ⟨"build/compute-boot-dependencies", c.ProjectBuildPhase + 1, Task.ComputeDependencies⟩ := by
  obtain ⟨r, hr, he, hsteps⟩ := apply_building c e ctx hmap hctx hph
  rw [replaceStep_initializeStep c hInit, replaceStep_computeDependenciesStep c hBuild] at hsteps
  have hklt : k < e.Steps.length := by
    rcases List.getElem?_eq_some.mp hk with ⟨hlt, _⟩
    exact hlt
  refine ⟨r, hr, he, ?_, ?_, ?_, ?_, ?_⟩
  · rw [hsteps]; simp
  · rw [hsteps, List.getElem?_append_left (by simpa using hklt), List.getElem?_map, hk]
    simp [replaceStep, hs, generateStep, NewStep]
  · intro i hi hne
    rw [hsteps, List.getElem?_append_left (by simpa using hi), List.getElem?_map]
    rcases hget : e.Steps[i]? with _ | s'
    · rfl
    · have hs' : s'.phase ≠ c.ProjectGenerationPhase := fun hp => hne (huniq i s' hget hp)
      simp [replaceStep, hs']
  · rw [hsteps, List.getElem?_append_right (by simp)]
    simp [initializeStep, NewStep]
  · rw [hsteps, List.getElem?_append_right (by simp)]
    simp [computeDependenciesStep, NewStep]

/-- Witness for C8 amended: a registry of three steps with the project generator at index 1. -/
theorem apply_building_single_generator_witness :
    ∃ r, apply samplePhases singleGeneratorEnv = .ok r ∧ r.err = none ∧
      r.env.Steps.length = 3 + 2 ∧
      r.env.Steps[1]? = some ⟨"generate/spring-boot", 10, Task.GenerateProject⟩ ∧
      (∀ i : Nat, i < 3 → i ≠ 1 → r.env.Steps[i]? = singleGeneratorEnv.Steps[i]?) ∧
      r.env.Steps[3]? = some ⟨"initialize/spring-boot", 0, Task.Initialize⟩ ∧
      r.env.Steps[3 + 1]?
        = some ⟨"build/compute-boot-dependencies", 20 + 1, Task.ComputeDependencies⟩ :=
  apply_building_single_generator samplePhases singleGeneratorEnv ⟨⟨"Building"⟩⟩ 1
    (NewStep "generate/project" 10 (Task.other 1))
    (by decide) (by decide) (fun _ => rfl) rfl rfl rfl rfl
    (by
      intro i s' h hp
      rcases i with _ | _ | _ | i
      · simp [singleGeneratorEnv] at h
        subst h
        exact absurd hp (by decide)
      · rfl
      · simp [singleGeneratorEnv] at h
        subst h
        exact absurd hp (by decide)
      · simp [singleGeneratorEnv] at h)

/-- C9, as stated, fails: with two steps at `ProjectGenerationPhase` the loop replaces both,
so the later one (index 1) is not left untouched. -/
theorem apply_building_replaces_later_generator :
    ∃ r, apply samplePhases twoGeneratorsEnv = .ok r ∧
      r.env.Steps = [generateStep samplePhases, generateStep samplePhases,
                     initializeStep samplePhases, computeDependenciesStep samplePhases] ∧
      twoGeneratorsEnv.Steps[1]? = some (NewStep "generate/extra" 10 (Task.other 3)) ∧
      r.env.Steps[1]? = some (NewStep "generate/spring-boot" 10 Task.GenerateProject) := by
  obtain ⟨r, hr, _, hsteps⟩ :=
    apply_building samplePhases twoGeneratorsEnv ⟨⟨"Building"⟩⟩ (fun _ => rfl) rfl rfl
  have hval : r.env.Steps = [generateStep samplePhases, generateStep samplePhases,
      initializeStep samplePhases, computeDependenciesStep samplePhases] := by
    rw [hsteps]
    decide
  refine ⟨r, hr, hval, by decide, ?_⟩
  rw [hval]
  decide

/-- C9, amended: for a Building-phase BuildContext whose env-var map is initialised if the
Integration is in the Deploying phase, `apply` returns and, whatever the number of steps at
`ProjectGenerationPhase`, the loop replaces every one of them by `generate/spring-boot` (the
first and all later ones) and leaves every step of another phase untouched, at its index. -/
theorem apply_building_replaces_every_generator (c : BuilderPhases) (e : Environment)
    (ctx : IntegrationContext)
    (hmap : integrationDeploying e = true → e.EnvVars.isSome = true)
    (hctx : e.Context = some ctx) (hph : ctx.Status.Phase = IntegrationContextPhaseBuilding) :
    ∃ r, apply c e = .ok r ∧
      ∀ (i : Nat) (s : Step), e.Steps[i]? = some s →
        (s.phase = c.ProjectGenerationPhase → r.env.Steps[i]?
          = some ⟨"generate/spring-boot", c.ProjectGenerationPhase, Task.GenerateProject⟩) ∧
        (s.phase ≠ c.ProjectGenerationPhase → r.env.Steps[i]? = some s) := by
  obtain ⟨r, hr, _, hsteps⟩ := apply_building c e ctx hmap hctx hph
  refine ⟨r, hr, ?_⟩
  intro i s hget
  have hilt : i < e.Steps.length := by
    rcases List.getElem?_eq_some.mp hget with ⟨hlt, _⟩
    exact hlt
  have hi : r.env.Steps[i]? = some (replaceStep c s) := by
    rw [hsteps, List.getElem?_append_left (by simpa using hilt), List.getElem?_map, hget]
    rfl
  constructor
  · intro hp
    rw [hi]
    simp [replaceStep, hp, generateStep, NewStep]
  · intro hp
    rw [hi]
    simp [replaceStep, hp]

/-- Witness for C9 amended: the registry with two project generators. -/
theorem apply_building_replaces_every_generator_witness :
    ∃ r, apply samplePhases twoGeneratorsEnv = .ok r ∧
      ∀ (i : Nat) (s : Step), twoGeneratorsEnv.Steps[i]? = some s →
        (s.phase = 10 → r.env.Steps[i]?
          = some ⟨"generate/spring-boot", 10, Task.GenerateProject⟩) ∧
        (s.phase ≠ 10 → r.env.Steps[i]? = some s) :=
  apply_building_replaces_every_generator samplePhases twoGeneratorsEnv ⟨⟨"Building"⟩⟩
    (fun _ => rfl) rfl rfl

/-- C10, as stated, fails: with a Deploying-phase Integration and the nil env-var map next to
the Building-phase BuildContext, `apply` panics at line 81, before the two appends, so it
returns no registry made of `S` and the two appended steps. -/
theorem apply_building_no_generator_nil_map :
    contextBuilding noGeneratorNilMapEnv = true ∧
    noGeneratorNilMapEnv.Steps.map (fun s => s.phase) = [0, 20] ∧
    samplePhases.ProjectGenerationPhase = 10 ∧
    apply samplePhases noGeneratorNilMapEnv = .error Panic.assignmentToNilMap ∧
    ¬ ∃ r, apply samplePhases noGeneratorNilMapEnv = .ok r ∧
      r.env.Steps.take noGeneratorNilMapEnv.Steps.length = noGeneratorNilMapEnv.Steps := by
  have h := apply_of_deploying_nil samplePhases noGeneratorNilMapEnv (by decide) rfl
  refine ⟨by decide, by decide, rfl, h, ?_⟩
  rintro ⟨r, hr, _⟩
  rw [h] at hr
  cases hr

/-- C10, amended: for a Building-phase BuildContext whose registry `S` holds no step at
`ProjectGenerationPhase` and whose env-var map is initialised if the Integration is in the
Deploying phase, `apply` returns and the loop changes nothing: the registry is `S` followed
by `initialize/spring-boot` and `build/compute-boot-dependencies`, so its first `len(S)`
entries are `S` in order.  The phases of the two appended steps are taken to differ from
`ProjectGenerationPhase` (the loop scans them too). -/
theorem apply_building_no_generator (c : BuilderPhases) (e : Environment)
    (ctx : IntegrationContext)
    (hInit : c.IntiPhase ≠ c.ProjectGenerationPhase)
    (hBuild : c.ProjectBuildPhase + 1 ≠ c.ProjectGenerationPhase)
    (hmap : integrationDeploying e = true → e.EnvVars.isSome = true)
    (hctx : e.Context = some ctx) (hph : ctx.Status.Phase = IntegrationContextPhaseBuilding)
    (hno : ∀ s ∈ e.Steps, s.phase ≠ c.ProjectGenerationPhase) :
    ∃ r, apply c e = .ok r ∧ r.err = none ∧
      r.env.Steps = e.Steps ++
        [⟨"initialize/spring-boot", c.IntiPhase, Task.Initialize⟩,
         ⟨"build/compute-boot-dependencies", c.ProjectBuildPhase + 1, Task.ComputeDependencies⟩] ∧
      r.env.Steps.take e.Steps.length = e.Steps := by
  obtain ⟨r, hr, he, hsteps⟩ := apply_building c e ctx hmap hctx hph
  rw [replaceStep_initializeStep c hInit, replaceStep_computeDependenciesStep c hBuild] at hsteps
  have hmapid : e.Steps.map (replaceStep c) = e.Steps := by
    conv_rhs => rw [← List.map_id e.Steps]
    apply List.map_congr_left
    intro s hsmem
    simp [replaceStep, hno s hsmem]
  rw [hmapid] at hsteps
  refine ⟨r, hr, he, hsteps, ?_⟩
  rw [hsteps]
  simp

/-- Witness for C10 amended: a registry of two steps, none at the project-generation phase. -/
theorem apply_building_no_generator_witness :
    ∃ r, apply samplePhases noGeneratorEnv = .ok r ∧ r.err = none ∧
      r.env.Steps = [NewStep "prepare" 0 (Task.other 0), NewStep "build/project" 20 (Task.other 2)]
        ++ [⟨"initialize/spring-boot", 0, Task.Initialize⟩,
            ⟨"build/compute-boot-dependencies", 20 + 1, Task.ComputeDependencies⟩] ∧
      r.env.Steps.take 2
        = [NewStep "prepare" 0 (Task.other 0), NewStep "build/project" 20 (Task.other 2)] :=
  apply_building_no_generator samplePhases noGeneratorEnv ⟨⟨"Building"⟩⟩
    (by decide) (by decide) (fun _ => rfl) rfl rfl (by decide)

/-- C11, as stated, fails: the appended step `initialize/spring-boot` carries `IntiPhase`, not
an offset from `ProjectBuildPhase`.  On the sample scale its phase is 0, which is not greater
than the project-build phase 20. -/
theorem initializeStep_not_after_build :
    ∃ r, apply samplePhases buildingEnv = .ok r ∧
      r.env.Steps = [NewStep "initialize/spring-boot" 0 Task.Initialize,
                     NewStep "build/compute-boot-dependencies" 21 Task.ComputeDependencies] ∧
      samplePhases.ProjectBuildPhase = 20 ∧
      ¬ ((NewStep "initialize/spring-boot" 0 Task.Initialize).phase
          > samplePhases.ProjectBuildPhase) := by
  obtain ⟨r, hr, _, hsteps⟩ :=
    apply_building samplePhases buildingEnv ⟨⟨IntegrationContextPhaseBuilding⟩⟩
      (fun _ => rfl) rfl rfl
  refine ⟨r, hr, ?_, by decide, by decide⟩
  rw [hsteps]
  decide

/-- C11, amended: in the Building block the appended dependency-computation step carries
`ProjectBuildPhase + 1`, strictly greater than `ProjectBuildPhase`; the appended
initialization step carries `IntiPhase`, which is greater than `ProjectBuildPhase` only if
that constant is.  The env-var map is taken to be initialised if the Deploying block writes
to it before. -/
theorem appended_steps_phases (c : BuilderPhases) (e : Environment) (ctx : IntegrationContext)
    (hmap : integrationDeploying e = true → e.EnvVars.isSome = true)
    (hctx : e.Context = some ctx) (hph : ctx.Status.Phase = IntegrationContextPhaseBuilding) :
    ∃ r s1 s2, apply c e = .ok r ∧
      r.env.Steps[e.Steps.length]? = some s1 ∧
      r.env.Steps[e.Steps.length + 1]? = some s2 ∧
      s1.phase = c.IntiPhase ∧
      s2.phase = c.ProjectBuildPhase + 1 ∧
      s2.phase > c.ProjectBuildPhase ∧
      (s1.phase > c.ProjectBuildPhase ↔ c.IntiPhase > c.ProjectBuildPhase) := by
  obtain ⟨r, hr, _, hsteps⟩ := apply_building c e ctx hmap hctx hph
  have h1 : (replaceStep c (initializeStep c)).phase = c.IntiPhase := by
    rw [replaceStep_phase]; rfl
  have h2 : (replaceStep c (computeDependenciesStep c)).phase = c.ProjectBuildPhase + 1 := by
    rw [replaceStep_phase]; rfl
  refine ⟨r, replaceStep c (initializeStep c), replaceStep c (computeDependenciesStep c),
    hr, ?_, ?_, h1, h2, ?_, ?_⟩
  · rw [hsteps, List.getElem?_append_right (by simp)]
    simp
  · rw [hsteps, List.getElem?_append_right (by simp)]
    simp
  · rw [h2]; omega
  · rw [h1]

/-- Witness for C11 amended: the Building-phase Environment with an empty registry. -/
theorem appended_steps_phases_witness :
    ∃ r s1 s2, apply samplePhases buildingEnv = .ok r ∧
      r.env.Steps[0]? = some s1 ∧
      r.env.Steps[0 + 1]? = some s2 ∧
      s1.phase = 0 ∧
      s2.phase = 20 + 1 ∧
      s2.phase > 20 ∧
      (s1.phase > 20 ↔ (0 : Int) > 20) :=
  appended_steps_phases samplePhases buildingEnv ⟨⟨IntegrationContextPhaseBuilding⟩⟩
    (fun _ => rfl) rfl rfl

/-- C12: unique-add is idempotent, `AddUnique(AddUnique(L, v), v) = AddUnique(L, v)`, where
`AddUnique(L, v)` is `L` when `v` is an element of `L` and `L` followed by `v` otherwise. -/
theorem StringSliceUniqueAdd_idempotent (L : List String) (v : String) :
    StringSliceUniqueAdd (StringSliceUniqueAdd L v) v = StringSliceUniqueAdd L v ∧
    StringSliceUniqueAdd L v = (if v ∈ L then L else L ++ [v]) := by
  refine ⟨?_, rfl⟩
  apply StringSliceUniqueAdd_of_mem
  rw [mem_StringSliceUniqueAdd]
  exact Or.inr rfl

/-- C13: `IsEnabled` returns true exactly when the `Enabled` flag is set and points to true;
with the flag unset it returns false. -/
theorem IsEnabled_iff (t : springBootTrait) :
    (IsEnabled t = true ↔ t.BaseTrait.Enabled = some true) ∧
    IsEnabled { BaseTrait := { Enabled := none } } = false := by
  refine ⟨?_, rfl⟩
  unfold IsEnabled
  cases t.BaseTrait.Enabled with
  | none => simp
  | some b => simp

/-- C16: `IsAuto` returns false for every trait value, whatever its `Enabled` flag. -/
theorem IsAuto_false (t : springBootTrait) (enabled : Option Bool) :
    IsAuto t = false ∧ IsAuto { BaseTrait := { Enabled := enabled } } = false :=
  ⟨rfl, rfl⟩

/-- C14, as stated, fails: on a Deploying-phase Integration whose Environment holds the nil
env-var map, the assignment of line 81 panics, so `apply` does not return `nil`: it does not
return. -/
theorem apply_nil_map_panics :
    apply samplePhases deployingNilMapEnv = .error Panic.assignmentToNilMap ∧
    applyChecked samplePhases deployingNilMapEnv = .error Panic.assignmentToNilMap ∧
    ¬ ∃ r, apply samplePhases deployingNilMapEnv = .ok r := by
  have h := apply_of_deploying_nil samplePhases deployingNilMapEnv (by decide) rfl
  refine ⟨h, ?_, ?_⟩
  · rw [applyChecked_eq, h]
  · rintro ⟨r, hr⟩
    rw [h] at hr
    cases hr

/-- C14, amended: on every Environment, `apply` never reports an error: whenever it returns,
it returns `nil`.  It returns, whichever blocks fire, on every Environment whose env-var map
is initialised if the Integration is in the Deploying phase.  On the others, a Deploying-phase
Integration with the nil env-var map, it does not return: the assignment of line 81 panics. -/
theorem apply_reports_no_error (c : BuilderPhases) (e : Environment) :
    (∀ r, apply c e = .ok r → r.err = none) ∧
    ((integrationDeploying e = true → e.EnvVars.isSome = true) →
      ∃ r, apply c e = .ok r ∧ r.err = none) ∧
    (integrationDeploying e = true → e.EnvVars = none →
      apply c e = .error Panic.assignmentToNilMap) ∧
    (∀ p, apply c e = .error p →
      p = Panic.assignmentToNilMap ∧ integrationDeploying e = true ∧ e.EnvVars = none) := by
  refine ⟨fun r hr => (apply_Steps c e r hr).2, ?_, apply_of_deploying_nil c e, ?_⟩
  · intro hmap
    obtain ⟨r, hr⟩ := apply_returns c e hmap
    exact ⟨r, hr, (apply_Steps c e r hr).2⟩
  · intro p hp
    obtain ⟨h1, h2, h3, _⟩ := apply_panics_only_on_nil_map c e p hp
    exact ⟨h1, h2, h3⟩

/-- Witness for C14 amended: the Environment in which the Deploying and the Building block
both fire. -/
theorem apply_reports_no_error_witness :
    (integrationDeploying buildingDeployingEnv = true
      → buildingDeployingEnv.EnvVars.isSome = true) ∧
    ∃ r, apply samplePhases buildingDeployingEnv = .ok r ∧ r.err = none :=
  ⟨fun _ => rfl, (apply_reports_no_error samplePhases buildingDeployingEnv).2.1 (fun _ => rfl)⟩

/-- C15: `appliesTo` depends only on which resources are present and on their phases: two
Environments that agree on the presence and phase of the Context and of the Integration get
the same answer, whatever their dependency lists, env-var maps and registries.  The method
only reads the Environment: it returns its answer and nothing else. -/
theorem appliesTo_depends_on_phases (e1 e2 : Environment)
    (hc : e1.Context.map (fun ctx => ctx.Status.Phase)
        = e2.Context.map (fun ctx => ctx.Status.Phase))
    (hi : e1.Integration.map (fun it => it.Status.Phase)
        = e2.Integration.map (fun it => it.Status.Phase)) :
    appliesTo e1 = appliesTo e2 ∧
    appliesToChecked e1 = .ok (appliesTo e1) ∧
    appliesToChecked e2 = .ok (appliesTo e1) := by
  have h := appliesTo_congr e1 e2 hc hi
  refine ⟨h, appliesToChecked_eq e1, ?_⟩
  rw [h]
  exact appliesToChecked_eq e2

/-- Witness for C15: two Deploying-phase Environments with different dependency lists,
registries and env-var maps. -/
theorem appliesTo_depends_on_phases_witness :
    deployingEnv.Steps ≠ deployingOtherEnv.Steps ∧
    (appliesTo deployingEnv = appliesTo deployingOtherEnv ∧
      appliesToChecked deployingEnv = .ok (appliesTo deployingEnv) ∧
      appliesToChecked deployingOtherEnv = .ok (appliesTo deployingEnv)) :=
  ⟨by decide, appliesTo_depends_on_phases deployingEnv deployingOtherEnv rfl rfl⟩

/-- C17: when the BuildContext is absent or not in the Building phase, `apply` is idempotent:
applying it to the Environment it left gives the same outcome as the first application
(same dependency list, env-var map and registry), and both return when the env-var map is
initialised if the Deploying block writes to it.  In the unset block, unique-adding
`runtime:spring-boot` to the sorted result and sorting again changes nothing. -/
theorem apply_idempotent_of_not_building (c : BuilderPhases) (e : Environment)
    (h : ∀ ctx, e.Context = some ctx → ctx.Status.Phase ≠ IntegrationContextPhaseBuilding) :
    applyTwice c e = apply c e ∧
    ((integrationDeploying e = true → e.EnvVars.isSome = true) →
      ∃ r, apply c e = .ok r ∧ applyTwice c e = .ok r) ∧
    (∀ L : List String,
      sortStrings (StringSliceUniqueAdd
          (sortStrings (StringSliceUniqueAdd L "runtime:spring-boot")) "runtime:spring-boot")
        = sortStrings (StringSliceUniqueAdd L "runtime:spring-boot")) := by
  have hb : contextBuilding e = false := by
    unfold contextBuilding
    cases hc : e.Context with
    | none => rfl
    | some ctx => simpa using h ctx hc
  have h1 := applyTwice_of_not_building c e hb
  refine ⟨h1, ?_, ?_⟩
  · intro hmap
    obtain ⟨r, hr⟩ := apply_returns c e hmap
    exact ⟨r, hr, by rw [h1, hr]⟩
  · intro L
    have hmem : "runtime:spring-boot"
        ∈ sortStrings (StringSliceUniqueAdd L "runtime:spring-boot") := by
      rw [mem_sortStrings, mem_StringSliceUniqueAdd]
      exact Or.inr rfl
    rw [StringSliceUniqueAdd_of_mem _ _ hmem, sortStrings_of_sorted _ (sortStrings_sorted _)]

/-- Witness for C17: the spec's unset-phase scenario, which has no BuildContext. -/
theorem apply_idempotent_of_not_building_witness :
    applyTwice samplePhases bLibEnv = apply samplePhases bLibEnv ∧
    ((integrationDeploying bLibEnv = true → bLibEnv.EnvVars.isSome = true) →
      ∃ r, apply samplePhases bLibEnv = .ok r ∧ applyTwice samplePhases bLibEnv = .ok r) ∧
    (∀ L : List String,
      sortStrings (StringSliceUniqueAdd
          (sortStrings (StringSliceUniqueAdd L "runtime:spring-boot")) "runtime:spring-boot")
        = sortStrings (StringSliceUniqueAdd L "runtime:spring-boot")) :=
  apply_idempotent_of_not_building samplePhases bLibEnv
    (fun ctx hc => absurd hc (by simp [bLibEnv]))

/-- C18, as stated, fails: with a Deploying-phase Integration and the nil env-var map next to
the Building-phase BuildContext, `apply` panics at line 81, so it returns no registry of
length `len(S) + 2`. -/
theorem apply_building_nil_map_no_registry :
    contextBuilding buildingDeployingNilMapEnv = true ∧
    apply samplePhases buildingDeployingNilMapEnv = .error Panic.assignmentToNilMap ∧
    ¬ ∃ r, apply samplePhases buildingDeployingNilMapEnv = .ok r ∧
      r.env.Steps.length = buildingDeployingNilMapEnv.Steps.length + 2 := by
  have h := apply_of_deploying_nil samplePhases buildingDeployingNilMapEnv (by decide) rfl
  refine ⟨by decide, h, ?_⟩
  rintro ⟨r, hr, _⟩
  rw [h] at hr
  cases hr

/-- C18, amended: for a Building-phase BuildContext with registry `S` whose env-var map is
initialised if the Integration is in the Deploying phase, `apply` returns and keeps the phase
at every position of `S`: the result has length `len(S) + 2`, the step at an index below
`len(S)` is the old one or, when the old one sits at `ProjectGenerationPhase`, the step
`generate/spring-boot` at that same phase, and among the first `len(S)` entries the number of
steps at each phase is unchanged. -/
theorem apply_building_preserves_phases (c : BuilderPhases) (e : Environment)
    (ctx : IntegrationContext)
    (hmap : integrationDeploying e = true → e.EnvVars.isSome = true)
    (hctx : e.Context = some ctx) (hph : ctx.Status.Phase = IntegrationContextPhaseBuilding) :
    ∃ r, apply c e = .ok r ∧
      r.env.Steps.length = e.Steps.length + 2 ∧
      (∀ (i : Nat) (s : Step), e.Steps[i]? = some s →
        ∃ s', r.env.Steps[i]? = some s' ∧ s'.phase = s.phase ∧
          (s' = s ∨ (s.phase = c.ProjectGenerationPhase ∧
            s' = ⟨"generate/spring-boot", c.ProjectGenerationPhase, Task.GenerateProject⟩))) ∧
      (∀ p : Int,
        (r.env.Steps.take e.Steps.length).countP (fun s => decide (s.phase = p))
          = e.Steps.countP (fun s => decide (s.phase = p))) := by
  obtain ⟨r, hr, _, hsteps⟩ := apply_building c e ctx hmap hctx hph
  refine ⟨r, hr, ?_, ?_, ?_⟩
  · rw [hsteps]; simp
  · intro i s hget
    have hilt : i < e.Steps.length := by
      rcases List.getElem?_eq_some.mp hget with ⟨hlt, _⟩
      exact hlt
    refine ⟨replaceStep c s, ?_, replaceStep_phase c s, ?_⟩
    · rw [hsteps, List.getElem?_append_left (by simpa using hilt), List.getElem?_map, hget]
      rfl
    · unfold replaceStep
      by_cases hp : s.phase = c.ProjectGenerationPhase
      · right
        simp [hp, generateStep, NewStep]
      · left
        simp [hp]
  · intro p
    have htake : r.env.Steps.take e.Steps.length = e.Steps.map (replaceStep c) := by
      rw [hsteps]
      have hl : (e.Steps.map (replaceStep c)).length = e.Steps.length := by simp
      rw [← hl, List.take_left']
      rfl
    rw [htake, List.countP_map]
    apply List.countP_congr
    intro s _
    simp [replaceStep_phase]

/-- Witness for C18 amended: the registry with two project generators. -/
theorem apply_building_preserves_phases_witness :
    ∃ r, apply samplePhases twoGeneratorsEnv = .ok r ∧
      r.env.Steps.length = 2 + 2 ∧
      (∀ (i : Nat) (s : Step), twoGeneratorsEnv.Steps[i]? = some s →
        ∃ s', r.env.Steps[i]? = some s' ∧ s'.phase = s.phase ∧
          (s' = s ∨ (s.phase = 10 ∧ s' = ⟨"generate/spring-boot", 10, Task.GenerateProject⟩))) ∧
      (∀ p : Int,
        (r.env.Steps.take 2).countP (fun s => decide (s.phase = p))
          = twoGeneratorsEnv.Steps.countP (fun s => decide (s.phase = p))) :=
  apply_building_preserves_phases samplePhases twoGeneratorsEnv
    ⟨⟨IntegrationContextPhaseBuilding⟩⟩ (fun _ => rfl) rfl rfl

/-- C19: each field is written by its own block only.  Whenever `apply` returns, the
Integration, hence its dependency list, is unchanged unless the Integration is present with
the unset phase; the env-var map is unchanged unless the Integration is present in the
Deploying phase; the registry is unchanged unless the BuildContext is present in the Building
phase.  The BuildContext and the status of the Integration, hence both phases, are never
changed, so `appliesTo` gives the same answer after `apply` as before.  `apply` returns
unless the Integration is in the Deploying phase with the nil env-var map; there the panic is
raised by the first assignment, line 81, the unset block having written nothing. -/
theorem apply_frame (c : BuilderPhases) (e : Environment) :
    (∀ r, apply c e = .ok r →
      (integrationUnset e = false → r.env.Integration = e.Integration) ∧
      (integrationDeploying e = false → r.env.EnvVars = e.EnvVars) ∧
      (contextBuilding e = false → r.env.Steps = e.Steps) ∧
      r.env.Context = e.Context ∧
      r.env.Integration.map (fun it => it.Status) = e.Integration.map (fun it => it.Status) ∧
      appliesTo r.env = appliesTo e) ∧
    ((integrationDeploying e = true → e.EnvVars.isSome = true) → ∃ r, apply c e = .ok r) ∧
    (∀ p, apply c e = .error p →
      applyIntegrationUnset e = e ∧
      mapAssign e.EnvVars "JAVA_MAIN_CLASS" "org.springframework.boot.loader.PropertiesLauncher"
        = .error p) := by
  refine ⟨?_, apply_returns c e, ?_⟩
  · intro r hr
    have hI := apply_Integration c e r hr
    have hE := apply_EnvVars c e r hr
    have hC := apply_Context c e r hr
    have hst : r.env.Integration.map (fun it => it.Status)
        = e.Integration.map (fun it => it.Status) := by
      rw [hI]
      split
      · cases e.Integration <;> simp [addRuntimeDependency]
      · rfl
    refine ⟨?_, ?_, ?_, hC, hst, ?_⟩
    · intro hu
      rw [hI]
      simp [hu]
    · intro hd
      rw [hE]
      simp [hd]
    · intro hb
      exact apply_Steps_of_not_building c e r hr hb
    · apply appliesTo_congr
      · rw [hC]
      · have := congrArg (Option.map (fun st : IntegrationStatus => st.Phase)) hst
        simpa [Option.map_map, Function.comp] using this
  · intro p hp
    obtain ⟨h1, _, h3, h4⟩ := apply_panics_only_on_nil_map c e p hp
    refine ⟨applyIntegrationUnset_of_not e h4, ?_⟩
    rw [h3, h1]
    rfl

/-- Witness for C19: the Environment in which the Deploying and the Building block both
fire. -/
theorem apply_frame_witness :
    ∃ r, apply samplePhases buildingDeployingEnv = .ok r ∧
      (integrationUnset buildingDeployingEnv = false
        → r.env.Integration = buildingDeployingEnv.Integration) ∧
      (integrationDeploying buildingDeployingEnv = false
        → r.env.EnvVars = buildingDeployingEnv.EnvVars) ∧
      (contextBuilding buildingDeployingEnv = false → r.env.Steps = buildingDeployingEnv.Steps) ∧
      r.env.Context = buildingDeployingEnv.Context ∧
      r.env.Integration.map (fun it => it.Status)
        = buildingDeployingEnv.Integration.map (fun it => it.Status) ∧
      appliesTo r.env = appliesTo buildingDeployingEnv := by
  obtain ⟨r, hr⟩ := (apply_frame samplePhases buildingDeployingEnv).2.1 (fun _ => rfl)
  exact ⟨r, hr, (apply_frame samplePhases buildingDeployingEnv).1 r hr⟩

/-- C20: with an initialised env-var map, `appliesTo` and `apply` run to their `return` when
every dereference of `e.Context` and `e.Integration` and every index access `e.Steps[i]` is
checked: the checked methods return what the unchecked ones return.  The replacement loop,
entered at any index of any registry, never reads outside the registry. -/
theorem checked_methods_total (c : BuilderPhases) (e : Environment)
    (hmap : e.EnvVars.isSome = true) :
    appliesToChecked e = .ok (appliesTo e) ∧
    (∃ r, applyChecked c e = .ok r ∧ apply c e = .ok r ∧ r.err = none) ∧
    (∀ (steps : List Step) (i : Nat),
      ∃ out, replaceProjectGenerator c steps i = .ok out ∧ out.length = steps.length) := by
  obtain ⟨r, hr⟩ := apply_returns c e (fun _ => hmap)
  refine ⟨appliesToChecked_eq e, ⟨r, ?_, hr, (apply_Steps c e r hr).2⟩,
    fun steps i => replaceProjectGenerator_returns c steps i⟩
  rw [applyChecked_eq, hr]

/-- Witness for C20: an Environment with neither a BuildContext nor an Integration. -/
theorem checked_methods_total_witness :
    bareEnv.Context = none ∧ bareEnv.Integration = none ∧
    (appliesToChecked bareEnv = .ok (appliesTo bareEnv) ∧
      (∃ r, applyChecked samplePhases bareEnv = .ok r ∧ apply samplePhases bareEnv = .ok r ∧
        r.err = none) ∧
      (∀ (steps : List Step) (i : Nat),
        ∃ out, replaceProjectGenerator samplePhases steps i = .ok out ∧
          out.length = steps.length)) :=
  ⟨rfl, rfl, checked_methods_total samplePhases bareEnv rfl⟩

end trait
